import Mathlib

/-!
# Verification of the ozzy-opencore changeset→configuration merge engine

Shallow embedding of the repository's Python sources:

* `scripts/patch-plist.py`   — the plist patcher (`set_key`, `append_unique`,
  `convert_data_values_dict`, `merge_dict`, the `remove` op in `main`).
* `scripts/apply-changeset.py` — validation, NVRAM mirroring,
  `changeset_to_operations`, `post_process_config`, and the `main` pipeline.
* `lib/data_conversion.py`   — hex/int-list/bytes normalisation.
* `lib/changeset.py`         — `validate_changeset_structure`.
* `scripts/plist-to-changeset.py` — plist → changeset extraction.

Python values (the common sublanguage of YAML, JSON and plist trees that the
scripts manipulate) are modelled by the inductive type `Value`.  Python dicts
are modelled as insertion-ordered association lists with unique keys, which is
exactly the observable behaviour of Python 3 dicts under the operations the
scripts use.  Fallible Python code (statements that can raise) is modelled in
`Except String`.
-/

namespace Ozzy

/-- A Python/YAML/plist value as manipulated by the scripts: `None`, `bool`,
`int`, `str`, `bytes` (a list of byte values), list, and insertion-ordered
dict.  Floats and dates do not occur on the code paths under verification. -/
inductive Value where
  | null : Value
  | bool (b : Bool) : Value
  | int (n : Int) : Value
  | str (s : String) : Value
  | bytes (bs : List Nat) : Value
  | arr (xs : List Value) : Value
  | dict (kvs : List (String × Value)) : Value
  deriving Repr

namespace Value

mutual

/-- Structural (Lean-level) equality test on values. -/
def beq : Value → Value → Bool
  | .null, .null => true
  | .bool a, .bool b => a == b
  | .int a, .int b => a == b
  | .str a, .str b => a == b
  | .bytes a, .bytes b => a == b
  | .arr a, .arr b => beqList a b
  | .dict a, .dict b => beqKvs a b
  | _, _ => false

/-- Structural equality on value lists. -/
def beqList : List Value → List Value → Bool
  | [], [] => true
  | x :: xs, y :: ys => beq x y && beqList xs ys
  | _, _ => false

/-- Structural equality on association lists. -/
def beqKvs : List (String × Value) → List (String × Value) → Bool
  | [], [] => true
  | (k, v) :: xs, (k', v') :: ys => k == k' && beq v v' && beqKvs xs ys
  | _, _ => false

end

mutual

theorem beq_iff : ∀ a b : Value, beq a b = true ↔ a = b
  | .null, b => by cases b <;> simp [beq]
  | .bool a, b => by cases b <;> simp [beq]
  | .int a, b => by cases b <;> simp [beq]
  | .str a, b => by cases b <;> simp [beq]
  | .bytes a, b => by cases b <;> simp [beq]
  | .arr xs, b => by
      cases b <;> simp [beq]
      exact beqList_iff xs _
  | .dict kvs, b => by
      cases b <;> simp [beq]
      exact beqKvs_iff kvs _

theorem beqList_iff : ∀ xs ys : List Value, beqList xs ys = true ↔ xs = ys
  | [], ys => by cases ys <;> simp [beqList]
  | x :: xs, ys => by
      cases ys with
      | nil => simp [beqList]
      | cons y ys =>
          simp only [beqList, Bool.and_eq_true, List.cons.injEq]
          rw [beq_iff, beqList_iff]

theorem beqKvs_iff :
    ∀ xs ys : List (String × Value), beqKvs xs ys = true ↔ xs = ys
  | [], ys => by cases ys <;> simp [beqKvs]
  | (k, v) :: xs, ys => by
      cases ys with
      | nil => simp [beqKvs]
      | cons y ys =>
          obtain ⟨k', v'⟩ := y
          simp only [beqKvs, Bool.and_eq_true, List.cons.injEq, Prod.mk.injEq,
            beq_iff_eq]
          rw [beq_iff, beqKvs_iff]

end

instance : DecidableEq Value := fun a b =>
  decidable_of_iff (beq a b = true) (beq_iff a b)

/-- First binding of a key in an association list (Python dict lookup). -/
def dictFind (kvs : List (String × Value)) (k : String) : Option Value :=
  match kvs with
  | [] => none
  | (k', v) :: rest => if k' = k then some v else dictFind rest k

/-- Python `d[k] = v`: replace the value in place if the key is present
(keeping its position), otherwise append the binding at the end. -/
def dictSet (kvs : List (String × Value)) (k : String) (v : Value) :
    List (String × Value) :=
  match kvs with
  | [] => [(k, v)]
  | (k', v') :: rest =>
      if k' = k then (k', v) :: rest else (k', v') :: dictSet rest k v

/-- Python `del d[k]` / `d.pop(k, None)`: drop the binding for `k`. -/
def dictDel (kvs : List (String × Value)) (k : String) :
    List (String × Value) :=
  kvs.filter (fun kv => kv.1 ≠ k)

/-- Python `d.update(e)`: fold `dictSet` over the entries of `e` in order. -/
def dictUpdate (kvs entries : List (String × Value)) :
    List (String × Value) :=
  entries.foldl (fun acc kv => dictSet acc kv.1 kv.2) kvs

/-- Python `d.get(k)` on a dict value, with default `None`. -/
def pyGet (v : Value) (k : String) : Value :=
  match v with
  | .dict kvs => (dictFind kvs k).getD .null
  | _ => .null

/-- Python truthiness of a value. -/
def pyTruthy : Value → Bool
  | .null => false
  | .bool b => b
  | .int n => n != 0
  | .str s => s != ""
  | .bytes bs => !bs.isEmpty
  | .arr xs => !xs.isEmpty
  | .dict kvs => !kvs.isEmpty

/-- `isinstance(v, dict)`. -/
def isDict : Value → Bool
  | .dict _ => true
  | _ => false

/-- `isinstance(v, list)`. -/
def isList : Value → Bool
  | .arr _ => true
  | _ => false

/-- `isinstance(v, str)`. -/
def isStr : Value → Bool
  | .str _ => true
  | _ => false

/-- `isinstance(v, bytes)`. -/
def isBytes : Value → Bool
  | .bytes _ => true
  | _ => false

/-- `isinstance(x, int) and 0 <= x <= 255`.  In Python `bool` is a subclass of
`int`, so `True`/`False` count as the integers 1/0 here. -/
def isByteInt : Value → Bool
  | .int n => 0 ≤ n && n ≤ 255
  | .bool _ => true
  | _ => false

/-- The byte contributed by a `0..255` int (or bool) when `bytes(...)` is
applied to a list of them. -/
def toByte : Value → Nat
  | .int n => n.toNat
  | .bool b => if b then 1 else 0
  | _ => 0

mutual

/-- Python `==` on values.  Python treats `bool` as a subclass of `int`
(`True == 1`), compares lists elementwise and dicts by key set and values
(insertion order irrelevant).  The dict case assumes the association lists
have unique keys, an invariant every constructor in the scripts maintains;
under that assumption forward inclusion plus equal length decides equality
of the key sets. -/
def pyEq : Value → Value → Bool
  | .null, .null => true
  | .bool a, .bool b => a == b
  | .bool a, .int n => (if a then (1 : Int) else 0) == n
  | .int n, .bool b => n == (if b then (1 : Int) else 0)
  | .int m, .int n => m == n
  | .str a, .str b => a == b
  | .bytes a, .bytes b => a == b
  | .arr xs, .arr ys => pyEqList xs ys
  | .dict a, .dict b => a.length == b.length && pyEqKvsFwd a b
  | _, _ => false

/-- Python `==` on lists: equal length and elementwise equal. -/
def pyEqList : List Value → List Value → Bool
  | [], [] => true
  | x :: xs, y :: ys => pyEq x y && pyEqList xs ys
  | _, _ => false

/-- Every binding of the first dict occurs (up to `pyEq`) in the second. -/
def pyEqKvsFwd : List (String × Value) → List (String × Value) → Bool
  | [], _ => true
  | (k, v) :: rest, b =>
      (match dictFind b k with
       | some w => pyEq v w
       | none => false) && pyEqKvsFwd rest b

end

end Value

open Value

/-! ## `scripts/patch-plist.py` — the plist patcher

The patcher receives a JSON list of operations and applies them to the
in-memory plist tree.  Note that the script has two `__main__` blocks: the
first applies `set`/`append`/`merge` (silently skipping `remove`), dumps the
plist, and then `main()` reloads it and applies all four operations again.
So one patcher invocation applies the operation list twice. -/

/-- The binary data fields recognised by `set_key` and
`convert_data_values_dict`. -/
def binKeys : List String :=
  ["Find", "Mask", "Replace", "ReplaceMask", "Cpuid1Data", "Cpuid1Mask"]

/-- Python `bytes(xs)` on a list: every element must be an int (or bool) in
`0..255`, otherwise `TypeError`/`ValueError` is raised. -/
def bytesOfList (xs : List Value) : Except String (List Nat) :=
  if xs.all isByteInt then .ok (xs.map toByte)
  else .error "bytes(): list element not an int in range(0, 256)"

/-- Sequence an `Except`-valued function over a list, left to right,
stopping at the first error (the behaviour of a Python `for` loop that can
raise). -/
def exMapM {α β : Type} (f : α → Except String β) : List α → Except String (List β)
  | [] => pure []
  | x :: xs => do pure ((← f x) :: (← exMapM f xs))

mutual

/-- `convert_data_values_dict` from `patch-plist.py`: recursively convert
list values of a dict to bytes — unconditionally for the known binary
fields, and for any field whose list elements are all ints in `0..255`.
Non-dict input is returned unchanged. -/
def convDict : Value → Except String Value
  | .dict kvs => do
      let kvs' ← convKvs kvs
      pure (.dict kvs')
  | v => pure v

/-- Entry loop of `convert_data_values_dict`. -/
def convKvs : List (String × Value) → Except String (List (String × Value))
  | [] => pure []
  | (k, v) :: rest => do
      let v' ← convEntryVal k v
      let rest' ← convKvs rest
      pure ((k, v') :: rest')

/-- One binding of `convert_data_values_dict`'s loop; the dict branch is
the recursive `convert_data_values_dict(value)` call. -/
def convEntryVal (k : String) (v : Value) : Except String Value :=
  match v with
  | .arr xs =>
      if k ∈ binKeys then (bytesOfList xs).map .bytes
      else if xs.all isByteInt then pure (.bytes (xs.map toByte))
      else pure (.arr xs)
  | .dict kvs => do pure (Value.dict (← convKvs kvs))
  | v => pure v

end

/-- The list-to-bytes coercion at the head of `set_key`.  `fieldName` is
`path[-1] if path else ""`.  The `elif len(value) == 0` branch of the source
is reproduced here but is unreachable: `all` over an empty list is `True`,
so an empty list is already caught by the first branch. -/
def setCoerce (fieldName : String) (value : Value) : Value :=
  match value with
  | .arr xs =>
      if xs.all isByteInt then .bytes (xs.map toByte)
      else if xs.isEmpty then
        if fieldName ∈ binKeys then .bytes [] else .arr xs
      else .arr xs
  | v => v

/-- Navigation shared by `set_key`, `ensure_array` and `merge_dict`:
`for k in path[:-1]: cur = cur.setdefault(k, {})`, then apply `leaf` to the
final dict and last path component.  An empty path raises `IndexError`
(`path[-1]`), reaching a non-dict raises. -/
def withLeaf (v : Value) (path : List String)
    (leaf : List (String × Value) → String → Except String (List (String × Value))) :
    Except String Value :=
  match v, path with
  | .dict kvs, [k] => do pure (.dict (← leaf kvs k))
  | .dict kvs, k :: k' :: rest => do
      let sub := (dictFind kvs k).getD (.dict [])
      let sub' ← withLeaf sub (k' :: rest) leaf
      pure (.dict (dictSet kvs k sub'))
  | _, [] => .error "IndexError: empty path"
  | _, _ => .error "AttributeError: setdefault on non-dict"

/-- `set_key` from `patch-plist.py`. -/
def setKey (obj : Value) (path : List String) (value : Value) :
    Except String Value :=
  let value := setCoerce (path.getLastD "") value
  withLeaf obj path (fun kvs k => pure (dictSet kvs k value))

/-- Python iteration over a value (`for x in v`): lists yield elements,
strings yield 1-character strings, bytes yield ints, dicts yield their keys;
other values raise `TypeError`. -/
def pyIterList : Value → Except String (List Value)
  | .arr xs => .ok xs
  | .str s => .ok (s.data.map (fun c => .str (String.mk [c])))
  | .bytes bs => .ok (bs.map (fun b => .int b))
  | .dict kvs => .ok (kvs.map (fun kv => .str kv.1))
  | _ => .error "TypeError: not iterable"

/-- The generator inside `append_unique`'s `any(...)`:
`isinstance(x, dict) and x.get(key) == entry.get(key)`.  Evaluation is
lazy, so `entry.get` (which raises `AttributeError` when `entry` is not a
dict) is only reached at the first dict element of `arr`. -/
def appendDupCheck (arr : List Value) (entry : Value) (k : String) :
    Except String Bool :=
  match arr with
  | [] => .ok false
  | x :: rest =>
      if x.isDict then
        if entry.isDict then
          if pyEq (pyGet x k) (pyGet entry k) then .ok true
          else appendDupCheck rest entry k
        else .error "AttributeError: entry.get on non-dict"
      else appendDupCheck rest entry k

/-- The array-level behaviour of `append_unique`: convert a dict entry with
`convert_data_values_dict`, then append unless a duplicate is present —
membership by Python `==` without a key, or a matching discriminator field
with one. -/
def appendUniqueList (arr : List Value) (entry0 : Value)
    (key : Option String) : Except String (List Value) := do
  let entry ← if entry0.isDict then convDict entry0 else pure entry0
  match key with
  | none =>
      if arr.any (fun x => pyEq x entry) then pure arr
      else pure (arr ++ [entry])
  | some k => do
      let dup ← appendDupCheck arr entry k
      if dup then pure arr else pure (arr ++ [entry])

/-- `append_unique` from `patch-plist.py` acting on the tree:
`ensure_array` replaces a missing or non-list target with `[]`, then the
array-level append runs in place. -/
def appendUnique (obj : Value) (path : List String) (entry : Value)
    (key : Option String) : Except String Value := do
  -- the entry conversion inside appendUniqueList precedes navigation in the
  -- source; both orders agree on success and neither is observable on error
  withLeaf obj path (fun kvs k => do
    let arr := match dictFind kvs k with
      | some (.arr xs) => xs
      | _ => []
    let xs' ← appendUniqueList arr entry key
    pure (dictSet kvs k (.arr xs')))

/-- `merge_dict` from `patch-plist.py`: `setdefault` the target to `{}`,
raise `ValueError` if it is not a dict, convert the entries with
`convert_data_values_dict` and `dict.update` the target.  Entries that are
not a dict raise in `dict.update` (update from a non-mapping iterable is not
used by the translator and not modelled further). -/
def mergeDict (obj : Value) (path : List String) (entries : Value) :
    Except String Value :=
  withLeaf obj path (fun kvs k => do
    match (dictFind kvs k).getD (.dict []) with
    | .dict tkvs => do
        match ← convDict entries with
        | .dict ekvs => pure (dictSet kvs k (.dict (dictUpdate tkvs ekvs)))
        | _ => .error "TypeError: update expects a mapping"
    | _ => .error "ValueError: Target not dict")

/-- The `remove` op from `main()` in `patch-plist.py`: navigate `path[:-1]`
with `cur.get(k, {})` — a missing key detaches the walk onto a throwaway
dict, so the tree is returned unchanged — and replace the target array by
the elements that are not dicts whose `key` field `==` `value`. -/
def removeOp (v : Value) (path : List String) (key : String) (tv : Value) :
    Except String Value :=
  match v, path with
  | _, [] => .error "IndexError: empty path"
  | .dict kvs, [last] => do
      let arr := (dictFind kvs last).getD (.arr [])
      let xs ← pyIterList arr
      pure (.dict (dictSet kvs last
        (.arr (xs.filter (fun x => !(x.isDict && pyEq (pyGet x key) tv))))))
  | .dict kvs, k :: k' :: rest =>
      match dictFind kvs k with
      | some w => do
          let w' ← removeOp w (k' :: rest) key tv
          pure (.dict (dictSet kvs k w'))
      | none => pure (.dict kvs)
  | _, _ => .error "AttributeError: get on non-dict"

/-! ## Hex and base64 primitives

`bytes.fromhex`, `b.hex()`, `f"{b:02X}"`, `base64.b64decode` and
`base64.b64encode` as used by the scripts.  The callers strip whitespace
before `bytes.fromhex`, so the parser here expects a pure string of hex
digits. -/

/-- The value of one hex digit, upper or lower case (`bytes.fromhex`,
`int(_, 16)`). -/
def hexVal? (c : Char) : Option Nat :=
  if '0' ≤ c ∧ c ≤ '9' then some (c.toNat - '0'.toNat)
  else if 'a' ≤ c ∧ c ≤ 'f' then some (c.toNat - 'a'.toNat + 10)
  else if 'A' ≤ c ∧ c ≤ 'F' then some (c.toNat - 'A'.toNat + 10)
  else none

/-- `bytes.fromhex` on a whitespace-free string: pairs of hex digits; an odd
length or a non-hex character raises `ValueError`. -/
def fromHexChars : List Char → Option (List Nat)
  | [] => some []
  | [_] => none
  | c1 :: c2 :: rest => do
      let h ← hexVal? c1
      let l ← hexVal? c2
      let bs ← fromHexChars rest
      pure ((16 * h + l) :: bs)

/-- Python `s.replace("0x", "")`: delete non-overlapping occurrences of
`"0x"` left to right. -/
def stripOx : List Char → List Char
  | [] => []
  | [c] => [c]
  | c1 :: c2 :: rest =>
      if c1 = '0' ∧ c2 = 'x' then stripOx rest
      else c1 :: stripOx (c2 :: rest)

/-- `hex_string_to_bytes` from `lib/data_conversion.py`:
`hex_str.replace(' ', '').replace('0x', '')` then `bytes.fromhex`. -/
def hexStringToBytes (s : String) : Option (List Nat) :=
  fromHexChars (stripOx (s.data.filter (fun c => c ≠ ' ')))

/-- `bytes.fromhex(value.replace(' ', ''))` as used for kernel-patch hex
strings (no `0x` stripping there). -/
def fromHexNoOx (s : String) : Option (List Nat) :=
  fromHexChars (s.data.filter (fun c => c ≠ ' '))

/-- Lowercase hex pair of one byte, as produced by Python's `b.hex()`. -/
def byteToHexChars (n : Nat) : List Char :=
  [Nat.digitChar (n / 16), Nat.digitChar (n % 16)]

/-- `b.hex()`: lowercase hex string of a byte list. -/
def hexOfBytes (bs : List Nat) : List Char :=
  bs.foldr (fun b acc => byteToHexChars b ++ acc) []

/-- Uppercase hex digit (`f"{b:02X}"`). -/
def digitCharUpper (n : Nat) : Char :=
  if n < 10 then Nat.digitChar n
  else Char.ofNat ('A'.toNat + (n - 10))

/-- `f"{b:02X}"`: uppercase two-digit hex pair of one byte. -/
def byteToHexUpper (n : Nat) : List Char :=
  [digitCharUpper (n / 16), digitCharUpper (n % 16)]

/-- `' '.join(f'{b:02X}' for b in bs)`. -/
def hexJoinUpper (bs : List Nat) : List Char :=
  match bs with
  | [] => []
  | [b] => byteToHexUpper b
  | b :: rest => byteToHexUpper b ++ ' ' :: hexJoinUpper rest

/-- Value of a base64 alphabet character. -/
def b64Val? (c : Char) : Option Nat :=
  if 'A' ≤ c ∧ c ≤ 'Z' then some (c.toNat - 'A'.toNat)
  else if 'a' ≤ c ∧ c ≤ 'z' then some (c.toNat - 'a'.toNat + 26)
  else if '0' ≤ c ∧ c ≤ '9' then some (c.toNat - '0'.toNat + 52)
  else if c = '+' then some 62
  else if c = '/' then some 63
  else none

/-- Decode base64 quadruples; `'='` padding may appear only in the final
quadruple (the realistic inputs of these scripts; exotic embedded-padding
strings accepted by CPython's lenient decoder are rejected here). -/
def b64Quads : List Char → Option (List Nat)
  | [] => some []
  | [c1, c2, '=', '='] => do
      let a ← b64Val? c1
      let b ← b64Val? c2
      pure [a * 4 + b / 16]
  | [c1, c2, c3, '='] => do
      let a ← b64Val? c1
      let b ← b64Val? c2
      let c ← b64Val? c3
      pure [a * 4 + b / 16, (b % 16) * 16 + c / 4]
  | c1 :: c2 :: c3 :: c4 :: rest => do
      let a ← b64Val? c1
      let b ← b64Val? c2
      let c ← b64Val? c3
      let d ← b64Val? c4
      let tail ← b64Quads rest
      pure ((a * 4 + b / 16) :: ((b % 16) * 16 + c / 4) :: ((c % 4) * 64 + d) :: tail)
  | _ => none

/-- `base64.b64decode` with `validate=False`: characters outside the
alphabet (and outside `'='`) are discarded, then the quadruples are
decoded; a leftover group raises `binascii.Error`. -/
def base64Decode (s : String) : Option (List Nat) :=
  b64Quads (s.data.filter (fun c => (b64Val? c).isSome || c = '='))

/-- Base64 alphabet character for a 6-bit value. -/
def b64Char (n : Nat) : Char :=
  if n < 26 then Char.ofNat ('A'.toNat + n)
  else if n < 52 then Char.ofNat ('a'.toNat + (n - 26))
  else if n < 62 then Char.ofNat ('0'.toNat + (n - 52))
  else if n = 62 then '+'
  else '/'

/-- `base64.b64encode(bs).decode('ascii')`. -/
def base64Encode : List Nat → List Char
  | [] => []
  | [a] => [b64Char (a / 4), b64Char ((a % 4) * 16), '=', '=']
  | [a, b] => [b64Char (a / 4), b64Char ((a % 4) * 16 + b / 16),
      b64Char ((b % 16) * 4), '=']
  | a :: b :: c :: rest =>
      b64Char (a / 4) :: b64Char ((a % 4) * 16 + b / 16) ::
      b64Char ((b % 16) * 4 + c / 64) :: b64Char (c % 64) :: base64Encode rest

/-! ## `lib/data_conversion.py` -/

/-- `int_list_to_bytes`: `bytes(int_list)`. -/
def intListToBytes (xs : List Value) : Except String (List Nat) :=
  bytesOfList xs

/-- `normalize_rom_value` from `lib/data_conversion.py`: a hex string (with
optional spaces and `0x`), an int list, or raw bytes, normalised to bytes;
anything else raises `ValueError`. -/
def normalizeRomValue : Value → Except String (List Nat)
  | .str s =>
      match hexStringToBytes s with
      | some bs => .ok bs
      | none => .error "ValueError: non-hexadecimal number found in fromhex"
  | .arr xs => intListToBytes xs
  | .bytes bs => .ok bs
  | _ => .error "ValueError: Unsupported ROM value type"

mutual

/-- `convert_data_values` from `lib/data_conversion.py` (the one imported by
`apply-changeset.py`): recursively convert `built-in`/`ROM` int lists to
bytes and `ROM` hex strings to bytes (keeping the string when the hex parse
fails), recursing into nested dicts and lists. -/
def convertDataValues : Value → Except String Value
  | .dict kvs => do pure (.dict (← convertDataValuesKvs kvs))
  | .arr xs => do pure (.arr (← convertDataValuesList xs))
  | v => pure v

/-- Entry loop of `convert_data_values`. -/
def convertDataValuesKvs :
    List (String × Value) → Except String (List (String × Value))
  | [] => pure []
  | (k, v) :: rest => do
      let v' ←
        if k = "built-in" ∧ v.isList then
          match v with
          | .arr xs => (bytesOfList xs).map .bytes
          | _ => pure v
        else if k = "ROM" ∧ v.isList then
          match v with
          | .arr xs => (bytesOfList xs).map .bytes
          | _ => pure v
        else if v.isStr ∧ k = "ROM" then
          match v with
          | .str s =>
              match fromHexNoOx s with
              | some bs => pure (.bytes bs)
              | none => pure (.str s)
          | _ => pure v
        else convertDataValues v
      let rest' ← convertDataValuesKvs rest
      pure ((k, v') :: rest')

/-- List recursion of `convert_data_values`. -/
def convertDataValuesList : List Value → Except String (List Value)
  | [] => pure []
  | v :: rest => do
      let v' ← convertDataValues v
      let rest' ← convertDataValuesList rest
      pure (v' :: rest')

end

/-- A patch operation as emitted by `changeset_to_operations` and consumed
by `patch-plist.py` (`{op, path, value|entry+key|entries|key+value}`). -/
inductive Op where
  | set (path : List String) (value : Value)
  | append (path : List String) (entry : Value) (key : Option String)
  | merge (path : List String) (entries : Value)
  | remove (path : List String) (key : String) (value : Value)
  deriving Repr

/-- One op in the first `__main__` block of `patch-plist.py`, which handles
`set`/`append`/`merge` (and `delete`/`list`, never emitted by the
translator) and silently skips `remove`. -/
def applyOpFirst (v : Value) : Op → Except String Value
  | .set path value => setKey v path value
  | .append path entry key => appendUnique v path entry key
  | .merge path entries => mergeDict v path entries
  | .remove _ _ _ => pure v

/-- One op in `main()` of `patch-plist.py`. -/
def applyOpMain (v : Value) : Op → Except String Value
  | .set path value => setKey v path value
  | .append path entry key => appendUnique v path entry key
  | .merge path entries => mergeDict v path entries
  | .remove path key value => removeOp v path key value

/-- Fold a list of operations over the tree. -/
def applyOps (apply : Value → Op → Except String Value)
    (v : Value) : List Op → Except String Value
  | [] => pure v
  | op :: rest => do applyOps apply (← apply v op) rest

/-- One full run of `patch-plist.py` on a tree: the first `__main__` block
applies the operations, the plist is dumped and reloaded (identity on the
tree), then `main()` applies them again. -/
def patcherRun (ops : List Op) (v : Value) : Except String Value := do
  applyOps applyOpMain (← applyOps applyOpFirst v ops) ops

/-! ## `lib/changeset.py` — `validate_changeset_structure` -/

/-- The three issue lists returned by the library's
`validate_changeset_structure`. -/
structure Issues where
  errors : List String
  warnings : List String
  info : List String
  deriving Repr, DecidableEq

/-- The recommended top-level sections checked by the library validator. -/
def requiredSections : List String := ["kexts", "booter_quirks", "kernel_quirks"]

/-- The SMBIOS fields whose absence the library validator warns about. -/
def smbiosFields : List String :=
  ["SystemProductName", "SystemSerialNumber", "MLB", "SystemUUID", "ROM"]

/-- The `kexts` loop of the library validator: errors for non-dict entries
and missing `bundle`, warnings for missing `exec`. -/
def kextIssues : List Value → Nat → List String × List String
  | [], _ => ([], [])
  | k :: rest, i =>
      let (es, ws) := kextIssues rest (i + 1)
      match k with
      | .dict kvs =>
          let es1 := if (dictFind kvs "bundle").isNone then
              ["kext[" ++ toString i ++ "] missing 'bundle' field"] else []
          let ws1 := if (dictFind kvs "exec").isNone then
              ["kext[" ++ toString i ++ "] missing 'exec' field"] else []
          (es1 ++ es, ws1 ++ ws)
      | _ => (("kext[" ++ toString i ++ "] must be a dictionary") :: es, ws)

/-- `validate_changeset_structure` from `lib/changeset.py`: missing
recommended sections produce warnings; malformed `kexts`/`smbios`/
`device_properties` sections produce errors; `proxmox_vm` produces info. -/
def validateChangesetStructureLib (data : List (String × Value)) : Issues :=
  let w0 := requiredSections.filterMap (fun s =>
    if (dictFind data s).isNone then
      some ("Missing recommended section: " ++ s) else none)
  let (e1, w1) := match dictFind data "kexts" with
    | none => ([], [])
    | some (.arr ks) => kextIssues ks 0
    | some _ => (["kexts section must be a list"], [])
  let (e2, w2) := match dictFind data "smbios" with
    | none => ([], [])
    | some (.dict skvs) =>
        ([], smbiosFields.filterMap (fun f =>
          if (dictFind skvs f).isNone then
            some ("SMBIOS missing field: " ++ f) else none))
    | some _ => (["smbios section must be a dictionary"], [])
  let e3 := match dictFind data "device_properties" with
    | none => []
    | some (.dict _) => []
    | some _ => ["device_properties section must be a dictionary"]
  let i1 := if (dictFind data "proxmox_vm").isSome then
      ["Changeset includes Proxmox VM configuration"] else []
  { errors := e1 ++ e2 ++ e3, warnings := w0 ++ w1 ++ w2, info := i1 }

/-! ## `scripts/apply-changeset.py` — validation and NVRAM mirroring -/

/-- Python `v[k]` subscripting on a dict: `KeyError` if absent, `TypeError`
on non-dict values (string/int subscripts of the scripts' shapes). -/
def pySubscript (v : Value) (k : String) : Except String Value :=
  match v with
  | .dict kvs =>
      match dictFind kvs k with
      | some w => .ok w
      | none => .error ("KeyError: " ++ k)
  | _ => .error "TypeError: value is not subscriptable by str"

/-- Python `k in v`: key test on dicts, substring test on strings,
membership on lists; `TypeError` otherwise. -/
def pyContains (v : Value) (k : String) : Except String Bool :=
  match v with
  | .dict kvs => .ok (dictFind kvs k).isSome
  | .str s => .ok (decide (List.IsInfix k.data s.data))
  | .arr xs => .ok (xs.any (fun x => pyEq x (.str k)))
  | _ => .error "TypeError: argument is not iterable"

/-- Python `v.items()`: `AttributeError` on non-dicts. -/
def pyItems (v : Value) : Except String (List (String × Value)) :=
  match v with
  | .dict kvs => .ok kvs
  | _ => .error "AttributeError: items"

/-- `changeset_data.get(k1, changeset_data.get(k2))` with a default. -/
def get2D (data : List (String × Value)) (k1 k2 : String) (dflt : Value) :
    Value :=
  (dictFind data k1).getD ((dictFind data k2).getD dflt)

/-- `changeset_data.get(k1, changeset_data.get(k2))` (default `None`). -/
def get2 (data : List (String × Value)) (k1 k2 : String) : Value :=
  get2D data k1 k2 .null

/-- `changeset_data['NVRAM'].get('Add') or changeset_data['NVRAM'].get('add')`
guarded by `'NVRAM' in changeset_data`; `none` when the section is absent. -/
def nvramAddOf (data : List (String × Value)) : Except String (Option Value) :=
  match dictFind data "NVRAM" with
  | none => .ok none
  | some (.dict nkvs) =>
      let a := (dictFind nkvs "Add").getD .null
      .ok (some (if a.pyTruthy then a else (dictFind nkvs "add").getD .null))
  | some _ => .error "AttributeError: get on non-dict"

/-- Does some GUID of the NVRAM `Add` mapping carry a `boot-args` variable?
(`isinstance(values, dict) and 'boot-args' in values`). -/
def nvramHasBootArgs (data : List (String × Value)) : Except String Bool := do
  match ← nvramAddOf data with
  | none => pure false
  | some nvAdd =>
      if nvAdd.pyTruthy then do
        let items ← pyItems nvAdd
        pure (items.any (fun gv =>
          gv.2.isDict && (match gv.2 with
            | .dict vkvs => (dictFind vkvs "boot-args").isSome
            | _ => false)))
      else pure false

/-- `validate_changeset_structure` from `apply-changeset.py`: `sys.exit(1)`
when boot-args appear both top-level (`boot_args`/`BootArgs` key present)
and inside an NVRAM `Add` GUID section. -/
def validateStructureApply (data : List (String × Value)) :
    Except String Unit := do
  let hasTop := (dictFind data "boot_args").isSome ||
    (dictFind data "BootArgs").isSome
  let hasNvram ← nvramHasBootArgs data
  if hasTop && hasNvram then
    .error "exit 1: duplicate boot-args definitions"
  else pure ()

/-- The GUID receiving the identity mirror. -/
def appleGuid : String := "4D1EDE05-38C7-4A6A-9CC6-4BCCA8B38C14"

/-- The identity fields copied to NVRAM. -/
def nvramIdentityFields : List String :=
  ["SystemProductName", "SystemSerialNumber", "MLB", "SystemUUID", "ROM"]

/-- The per-field copy of `apply_platform_info_to_nvram`: `ROM` hex strings
are converted with `bytes.fromhex` (keeping the string on `ValueError`),
every other present field is copied as-is. -/
def mirrorFields (platform : Value) (apple : List (String × Value)) :
    List String → Except String (List (String × Value))
  | [] => pure apple
  | f :: rest => do
      let present ← pyContains platform f
      let apple' ←
        if present then do
          let v ← pySubscript platform f
          if f = "ROM" then
            match v with
            | .str s =>
                match fromHexNoOx s with
                | some bs => pure (dictSet apple f (.bytes bs))
                | none => pure (dictSet apple f (.str s))
            | _ => pure (dictSet apple f v)
          else pure (dictSet apple f v)
        else pure apple
      mirrorFields platform apple' rest

/-- `apply_platform_info_to_nvram` from `apply-changeset.py`: unless
disabled, copy `PlatformInfo.Generic` identity fields into
`NVRAM.Add.<apple GUID>`, creating the intermediate mappings. -/
def applyPlatformInfoToNvram (data : List (String × Value)) :
    Except String (List (String × Value)) := do
  let copyFlag := (dictFind data "PlatformInfoGenericCopyToNvramForAppleId").getD
    (.bool true)
  if !copyFlag.pyTruthy then pure data
  else
    match dictFind data "PlatformInfo" with
    | none => pure data
    | some pv => do
        let hasGeneric ← pyContains pv "Generic"
        if !hasGeneric then pure data
        else do
          let platform ← pySubscript pv "Generic"
          let nvram ← match dictFind data "NVRAM" with
            | none => pure ([] : List (String × Value))
            | some (.dict nkvs) => pure nkvs
            | some _ => .error "TypeError: NVRAM section is not a mapping"
          let addm ← match dictFind nvram "Add" with
            | none => pure ([] : List (String × Value))
            | some (.dict akvs) => pure akvs
            | some _ => .error "TypeError: NVRAM.Add is not a mapping"
          let apple ← match dictFind addm appleGuid with
            | none => pure ([] : List (String × Value))
            | some (.dict gkvs) => pure gkvs
            | some _ => .error "TypeError: NVRAM.Add GUID is not a mapping"
          let apple' ← mirrorFields platform apple nvramIdentityFields
          pure (dictSet data "NVRAM" (.dict (dictSet nvram "Add"
            (.dict (dictSet addm appleGuid (.dict apple'))))))

/-! ## `scripts/apply-changeset.py` — `changeset_to_operations` -/

/-- The NVRAM GUID targeted by boot-args and csr-active-config. -/
def bootGuid : String := "7C436110-AB2A-4BBB-A880-FE41995C9F82"

/-- Python `str.strip()` over the character list, so that proofs can
evaluate it (`String.trim` recurses on byte positions and does not
reduce). -/
def trimStr (s : String) : String :=
  ⟨((s.data.dropWhile Char.isWhitespace).reverse.dropWhile
      Char.isWhitespace).reverse⟩

/-- One kext declaration to a `Kernel.Add` entry (the `kexts` loop):
`ExecutablePath` is `Contents/MacOS/<exec>` when `exec` is present, truthy
and non-blank after `strip()`, `Comment` repeats the bundle path, the rest
are fixed defaults. -/
def kextToEntry (kext : Value) : Except String Value :=
  match kext with
  | .dict kvs => do
      let execv := (dictFind kvs "exec").getD .null
      let execPath ←
        if execv.pyTruthy then
          match execv with
          | .str s =>
              pure (if trimStr s ≠ "" then "Contents/MacOS/" ++ s else "")
          | _ => .error "AttributeError: strip on non-str"
        else pure ""
      let bundle ← match dictFind kvs "bundle" with
        | some b => pure b
        | none => .error "KeyError: bundle"
      pure (.dict [("Arch", .str "Any"), ("BundlePath", bundle),
        ("Comment", bundle), ("Enabled", .bool true),
        ("ExecutablePath", .str execPath), ("MaxKernel", .str ""),
        ("MinKernel", .str ""), ("PlistPath", .str "Contents/Info.plist")])
  | _ => .error "AttributeError: get on non-dict kext"

/-- `kexts`/`Kexts` section: one `set` of the whole `Kernel.Add` array. -/
def kextsOps (data : List (String × Value)) : Except String (List Op) :=
  let kexts := get2 data "Kexts" "kexts"
  if kexts.pyTruthy then do
    let ks ← pyIterList kexts
    let entries ← exMapM kextToEntry ks
    pure [.set ["Kernel", "Add"] (.arr entries)]
  else pure []

/-- `KernelQuirks` section: reject `DummyPowerManagement` (`sys.exit(1)`),
otherwise merge the remaining quirks. -/
def kernelQuirksOps (data : List (String × Value)) :
    Except String (List Op) := do
  match dictFind data "KernelQuirks" with
  | none => pure []
  | some v => do
      let hasDpm ← pyContains v "DummyPowerManagement"
      if hasDpm then .error "exit 1: DummyPowerManagement in KernelQuirks"
      else if v.pyTruthy then pure [.merge ["Kernel", "Quirks"] v]
      else pure []

/-- Field fix-up of `ensure_bytes_for_kernel_patches` for one field. -/
def ensureBytesPatchField (kvs : List (String × Value)) (f : String) :
    Except String (List (String × Value)) :=
  match dictFind kvs f with
  | none => pure kvs
  | some (.arr xs) => (bytesOfList xs).map (fun bs => dictSet kvs f (.bytes bs))
  | some (.str s) =>
      match fromHexNoOx s with
      | some bs => pure (dictSet kvs f (.bytes bs))
      | none => .error "ValueError: non-hexadecimal number found in fromhex"
  | some _ => pure kvs

/-- One patch in `ensure_bytes_for_kernel_patches`: coerce the binary
fields of a dict patch, leave non-dict elements alone. -/
def ensureBytesPatch (p : Value) : Except String Value :=
  match p with
  | .dict kvs => do
      let kvs ← ensureBytesPatchField kvs "Find"
      let kvs ← ensureBytesPatchField kvs "Replace"
      let kvs ← ensureBytesPatchField kvs "Mask"
      let kvs ← ensureBytesPatchField kvs "ReplaceMask"
      pure (.dict kvs)
  | v => pure v

/-- `ensure_bytes_for_kernel_patches`: identity on non-lists. -/
def ensureBytesForKernelPatches (v : Value) : Except String Value :=
  match v with
  | .arr xs => do pure (.arr (← exMapM ensureBytesPatch xs))
  | v => pure v

/-- The first `boot-args` value found inside the NVRAM `Add` mapping. -/
def nvramBootArgsValue (data : List (String × Value)) :
    Except String (Option Value) := do
  match ← nvramAddOf data with
  | none => pure none
  | some nvAdd =>
      if nvAdd.pyTruthy then do
        let items ← pyItems nvAdd
        pure (items.findSome? (fun gv =>
          match gv.2 with
          | .dict vkvs => dictFind vkvs "boot-args"
          | _ => none))
      else pure none

/-- The boot-args block of `changeset_to_operations`: reject truthy values
in both forms, otherwise a single `set` of the boot GUID's `boot-args`. -/
def bootArgsOps (data : List (String × Value)) : Except String (List Op) := do
  let top := get2 data "BootArgs" "boot_args"
  let nvv := (← nvramBootArgsValue data).getD .null
  if top.pyTruthy && nvv.pyTruthy then
    .error "exit 1: duplicate boot-args definitions"
  else
    let final := if top.pyTruthy then top else nvv
    if final.pyTruthy then
      pure [.set ["NVRAM", "Add", bootGuid, "boot-args"] final]
    else pure []

/-- `[int(csr_clean[i:i+2], 16) for i in range(0, len(csr_clean), 2)]`. -/
def csrParse : List Char → Except String (List Nat)
  | [] => pure []
  | [c] =>
      match hexVal? c with
      | some h => pure [h]
      | none => .error "ValueError: invalid literal for int with base 16"
  | c1 :: c2 :: rest =>
      match hexVal? c1, hexVal? c2 with
      | some h, some l => do pure ((16 * h + l) :: (← csrParse rest))
      | _, _ => .error "ValueError: invalid literal for int with base 16"

/-- CSR block: hex strings become a list of ints, other values pass raw. -/
def csrOps (data : List (String × Value)) : Except String (List Op) :=
  let csr := get2 data "CsrActiveConfig" "csr_active_config"
  if csr.pyTruthy then
    match csr with
    | .str s => do
        let bs ← csrParse (s.data.filter (fun c => c ≠ ' '))
        pure [.set ["NVRAM", "Add", bootGuid, "csr-active-config"]
          (.arr (bs.map (fun n => .int n)))]
    | v => pure [.set ["NVRAM", "Add", bootGuid, "csr-active-config"] v]
  else pure []

/-- PlatformInfo block: merge the `convert_data_values`-converted Generic. -/
def platformInfoOps (data : List (String × Value)) :
    Except String (List Op) := do
  match dictFind data "PlatformInfo" with
  | none => pure []
  | some pv => do
      let has ← pyContains pv "Generic"
      if has then do
        let g ← pySubscript pv "Generic"
        let cg ← convertDataValues g
        pure [.merge ["PlatformInfo", "Generic"] cg]
      else pure []

/-- AcpiAdd block: a `remove` (by `Path`) followed by an `append` per file. -/
def acpiAddOps (data : List (String × Value)) : Except String (List Op) := do
  match dictFind data "AcpiAdd" with
  | none => pure []
  | some v => do
      let files ← pyIterList v
      pure (files.flatMap (fun f =>
        [.remove ["ACPI", "Add"] "Path" f,
         .append ["ACPI", "Add"]
           (.dict [("Path", f), ("Enabled", .bool true), ("Comment", f)])
           (some "Path")]))

/-- UefiDrivers block: one `append` (by `Path`) per driver. -/
def uefiDriversOps (data : List (String × Value)) :
    Except String (List Op) := do
  match dictFind data "UefiDrivers" with
  | none => pure []
  | some v => do
      let ds ← pyIterList v
      exMapM (fun d =>
        match d with
        | .dict kvs => do
            let path ← match dictFind kvs "path" with
              | some p => pure p
              | none => .error "KeyError: path"
            let entry := [("Path", path),
              ("Enabled", (dictFind kvs "enabled").getD (.bool true)),
              ("LoadEarly", (dictFind kvs "LoadEarly").getD (.bool false))]
            let entry := match dictFind kvs "arguments" with
              | some a => entry ++ [("Arguments", a)]
              | none => entry
            pure (Op.append ["UEFI", "Drivers"] (.dict entry) (some "Path"))
        | _ => .error "TypeError: driver is not a mapping") ds

/-- One tool declaration to a `Misc.Tools` entry (shared by the `tools`
append loop and the `MiscTools` set block, which build identical shapes). -/
def toolEntry (t : Value) : Except String Value :=
  match t with
  | .dict kvs => do
      let name ← match dictFind kvs "Name" with
        | some n => pure n
        | none => .error "KeyError: Name"
      let path ← match dictFind kvs "Path" with
        | some p => pure p
        | none => .error "KeyError: Path"
      pure (.dict [("Name", name), ("Path", path),
        ("Enabled", (dictFind kvs "Enabled").getD (.bool true)),
        ("Arguments", (dictFind kvs "Arguments").getD (.str "")),
        ("Auxiliary", (dictFind kvs "Auxiliary").getD (.bool false)),
        ("Comment", (dictFind kvs "Comment").getD (.str "")),
        ("Flavour", (dictFind kvs "Flavour").getD (.str "Auto")),
        ("FullNvramAccess", (dictFind kvs "FullNvramAccess").getD (.bool false)),
        ("RealPath", (dictFind kvs "RealPath").getD (.bool false)),
        ("TextMode", (dictFind kvs "TextMode").getD (.bool false))])
  | _ => .error "TypeError: tool is not a mapping"

/-- `tools`/`MiscTools` append block: a `remove` (by `Name`) followed by an
`append` per tool. -/
def toolsOps (data : List (String × Value)) : Except String (List Op) :=
  let tools := get2 data "MiscTools" "tools"
  if tools.pyTruthy then do
    let ts ← pyIterList tools
    let pairs ← exMapM (fun t => do
      let name ← match t with
        | .dict kvs =>
            match dictFind kvs "Name" with
            | some n => pure n
            | none => .error "KeyError: Name"
        | _ => .error "TypeError: tool is not a mapping"
      let entry ← toolEntry t
      pure [Op.remove ["Misc", "Tools"] "Name" name,
        Op.append ["Misc", "Tools"] entry (some "Name")]) ts
    pure pairs.flatten
  else pure []

/-- A `set` op when the two-spelling lookup is truthy. -/
def setIfTruthy (data : List (String × Value)) (k1 k2 : String)
    (path : List String) : List Op :=
  let v := get2 data k1 k2
  if v.pyTruthy then [.set path v] else []

/-- A `set` op when the two-spelling lookup is not `None`. -/
def setIfNotNone (data : List (String × Value)) (k1 k2 : String)
    (path : List String) : List Op :=
  match get2 data k1 k2 with
  | .null => []
  | v => [.set path v]

/-- Per-setting `set` ops for a sub-mapping section (`MiscDebug`,
`MiscSerial`, `UefiOutput`, `UefiApfs`, `UefiQuirks`,
`ProtocolOverrides`). -/
def settingsOps (data : List (String × Value)) (k1 k2 : String)
    (prefixPath : List String) : Except String (List Op) :=
  let v := get2 data k1 k2
  if v.pyTruthy then do
    let items ← pyItems v
    pure (items.map (fun kv => Op.set (prefixPath ++ [kv.1]) kv.2))
  else pure []

/-- The `snake_case` → OpenCore `PascalCase` map for `Misc.Boot`. -/
def bootKeyMapping : List (String × String) :=
  [("timeout", "Timeout"), ("picker_mode", "PickerMode"),
   ("poll_apple_hot_keys", "PollAppleHotKeys"), ("show_picker", "ShowPicker"),
   ("hide_auxiliary", "HideAuxiliary"),
   ("picker_attributes", "PickerAttributes"),
   ("picker_audio_assist", "PickerAudioAssist"),
   ("picker_variant", "PickerVariant"),
   ("console_attributes", "ConsoleAttributes"),
   ("takeoff_delay", "TakeoffDelay"), ("hibernate_mode", "HibernateMode"),
   ("hibernate_skips_picker", "HibernateSkipsPicker"),
   ("instance_identifier", "InstanceIdentifier"),
   ("launcher_option", "LauncherOption"), ("launcher_path", "LauncherPath")]

/-- The `snake_case` → OpenCore `PascalCase` map for `Misc.Security`. -/
def securityKeyMapping : List (String × String) :=
  [("secureboot_model", "SecureBootModel"), ("vault", "Vault"),
   ("scan_policy", "ScanPolicy"), ("allow_set_default", "AllowSetDefault"),
   ("expose_sensitive_data", "ExposeSensitiveData"),
   ("auth_restart", "AuthRestart"),
   ("blacklist_apple_update", "BlacklistAppleUpdate"),
   ("dmg_loading", "DmgLoading"), ("enable_password", "EnablePassword"),
   ("halt_level", "HaltLevel")]

/-- Mapped per-setting `set` ops (`MiscBoot`, `MiscSecurity`). -/
def mappedSettingsOps (data : List (String × Value)) (k1 k2 : String)
    (mapping : List (String × String)) (prefixPath : List String) :
    Except String (List Op) :=
  let v := get2 data k1 k2
  if v.pyTruthy then do
    let items ← pyItems v
    pure (items.map (fun kv =>
      let plistKey := ((mapping.find? (fun m => m.1 = kv.1)).map Prod.snd).getD kv.1
      Op.set (prefixPath ++ [plistKey]) kv.2))
  else pure []

/-- ASCII `str.lower()`, written over the character list so that proofs
can evaluate it (`String.toLower` recurses on byte positions and does not
reduce). -/
def lowerStr (s : String) : String := ⟨s.data.map Char.toLower⟩

/-- NVRAM block: per-variable `set` ops for `Add` (skipping `boot-args`),
per-GUID `set` ops for list-valued `Delete` entries, and a `WriteFlash`
`set` for the first case-insensitive `writeflash` key. -/
def nvramOps (data : List (String × Value)) : Except String (List Op) := do
  match dictFind data "NVRAM" with
  | none => pure []
  | some nv => do
      let hasAdd ← pyContains nv "Add"
      let addOps ←
        if hasAdd then do
          let addv ← pySubscript nv "Add"
          let guids ← pyItems addv
          let opss ← exMapM (fun gv => do
            let vars ← pyItems gv.2
            pure (vars.filterMap (fun kv =>
              if kv.1 = "boot-args" then none
              else some (Op.set ["NVRAM", "Add", gv.1, kv.1] kv.2)))) guids
          pure opss.flatten
        else pure []
      let hasDelete ← pyContains nv "Delete"
      let delOps ←
        if hasDelete then do
          let delv ← pySubscript nv "Delete"
          let guids ← pyItems delv
          pure (guids.filterMap (fun gv =>
            if gv.2.isList then
              some (Op.set ["NVRAM", "Delete", gv.1] gv.2)
            else none))
        else pure []
      let nkvs ← pyItems nv
      let wf := (nkvs.find? (fun kv => lowerStr kv.1 = "writeflash")).map Prod.snd
      let wfOps := match wf with
        | some .null => []
        | some v => [Op.set ["NVRAM", "WriteFlash"] v]
        | none => []
      pure (addOps ++ delOps ++ wfOps)

/-- `changeset_to_operations` from `apply-changeset.py`: the section
handlers in source order. -/
def changesetToOperations (data : List (String × Value)) :
    Except String (List Op) := do
  let o1 ← kextsOps data
  let o2 := match dictFind data "BooterQuirks" with
    | some v => [Op.merge ["Booter", "Quirks"] v]
    | none => []
  let o3 ← kernelQuirksOps data
  let o4 :=
    let ke := get2 data "KernelEmulate" "kernel_emulate"
    if ke.pyTruthy then [Op.merge ["Kernel", "Emulate"] ke] else []
  let kp := get2 data "KernelPatches" "kernel_patches"
  let o5 ←
    if kp.pyTruthy then do
      let patches ← ensureBytesForKernelPatches kp
      pure [Op.set ["Kernel", "Patch"] patches]
    else pure ([] : List Op)
  let o6 ← bootArgsOps data
  let o7 ← csrOps data
  let o8 ← platformInfoOps data
  let o9 ← acpiAddOps data
  let o10 :=
    let aq := get2 data "AcpiQuirks" "acpi_quirks"
    if aq.pyTruthy then [Op.merge ["ACPI", "Quirks"] aq] else []
  let o11 ← uefiDriversOps data
  let o12 ← toolsOps data
  let o13 := setIfTruthy data "DeviceProperties" "device_properties"
    ["DeviceProperties", "Add"]
  let o14 := setIfTruthy data "SecureBootModel" "secureboot_model"
    ["Misc", "Security", "SecureBootModel"]
  let o15 := setIfTruthy data "Vault" "vault" ["Misc", "Security", "Vault"]
  let o16 := setIfTruthy data "ScanPolicy" "scan_policy"
    ["Misc", "Security", "ScanPolicy"]
  let o17 ← settingsOps data "MiscDebug" "misc_debug" ["Misc", "Debug"]
  let o18 ← settingsOps data "MiscSerial" "misc_serial" ["Misc", "Serial"]
  let o19 ← nvramOps data
  let o20 ← mappedSettingsOps data "MiscBoot" "misc_boot" bootKeyMapping
    ["Misc", "Boot"]
  let o21 := setIfTruthy data "MiscBlessOverride" "misc_bless_override"
    ["Misc", "BlessOverride"]
  let o22 ← mappedSettingsOps data "MiscSecurity" "misc_security"
    securityKeyMapping ["Misc", "Security"]
  let o23 := setIfNotNone data "AllowSetDefault" "allow_set_default"
    ["Misc", "Security", "AllowSetDefault"]
  let o24 := setIfNotNone data "ExposeSensitiveData" "expose_sensitive_data"
    ["Misc", "Security", "ExposeSensitiveData"]
  let o25 := setIfNotNone data "AuthRestart" "auth_restart"
    ["Misc", "Security", "AuthRestart"]
  let o26 := setIfNotNone data "BlacklistAppleUpdate" "blacklist_apple_update"
    ["Misc", "Security", "BlacklistAppleUpdate"]
  let o27 := setIfNotNone data "DmgLoading" "dmg_loading"
    ["Misc", "Security", "DmgLoading"]
  let o28 := setIfNotNone data "EnablePassword" "enable_password"
    ["Misc", "Security", "EnablePassword"]
  let o29 := setIfNotNone data "HaltLevel" "halt_level"
    ["Misc", "Security", "HaltLevel"]
  let o30 ←
    match dictFind data "MiscTools" with
    | none => pure ([] : List Op)
    | some tv =>
        if tv.pyTruthy then do
          let ts ← pyIterList tv
          let entries ← exMapM toolEntry ts
          pure [Op.set ["Misc", "Tools"] (.arr entries)]
        else pure ([] : List Op)
  let o31 :=
    match dictFind data "MiscEntries" with
    | some v => if v.pyTruthy then [Op.set ["Misc", "Entries"] v] else []
    | none => []
  let o32 ← settingsOps data "UefiOutput" "uefi_output" ["UEFI", "Output"]
  let o33 ← settingsOps data "UefiApfs" "uefi_apfs" ["UEFI", "APFS"]
  let o34 ← settingsOps data "UefiQuirks" "uefi_quirks" ["UEFI", "Quirks"]
  let o35 := setIfNotNone data "ConnectDrivers" "connect_drivers"
    ["UEFI", "ConnectDrivers"]
  let o36 ← settingsOps data "ProtocolOverrides" "protocol_overrides"
    ["UEFI", "ProtocolOverrides"]
  let o37 := setIfTruthy data "ReservedMemory" "reserved_memory"
    ["UEFI", "ReservedMemory"]
  pure (o1 ++ o2 ++ o3 ++ o4 ++ o5 ++ o6 ++ o7 ++ o8 ++ o9 ++ o10 ++ o11 ++
    o12 ++ o13 ++ o14 ++ o15 ++ o16 ++ o17 ++ o18 ++ o19 ++ o20 ++ o21 ++
    o22 ++ o23 ++ o24 ++ o25 ++ o26 ++ o27 ++ o28 ++ o29 ++ o30 ++ o31 ++
    o32 ++ o33 ++ o34 ++ o35 ++ o36 ++ o37)

/-! ## `scripts/apply-changeset.py` — `post_process_config`

Modelled at the tree level.  The trailing XML passes
(`format_short_data_tags`, `convert_tabs_to_spaces`) rewrite whitespace in
the serialized file and do not change the parsed tree; `plistlib.dump` with
`sort_keys=False` is deterministic, so equal trees serialize to equal
bytes.  The wall-clock timestamp `datetime.now().strftime(...)` is the
explicit parameter `now`. -/

/-- `'Add' in section` followed by `section['Add']`, as
`post_process_config` uses on `DeviceProperties`, `NVRAM`, `ACPI` and
`Kernel`. -/
def sectionAdd? (v : Value) (k : String) : Except String (Option Value) := do
  if ← pyContains v k then pure (some (← pySubscript v k))
  else pure none

/-- Binary-field pass over one kernel patch: list-valued
`Find`/`Replace`/`Mask`/`ReplaceMask` fields become bytes. -/
def ppPatchField (kvs : List (String × Value)) (f : String) :
    Except String (List (String × Value)) :=
  match dictFind kvs f with
  | some (.arr xs) => (bytesOfList xs).map (fun bs => dictSet kvs f (.bytes bs))
  | _ => pure kvs

/-- One element of the `Kernel.Patch` loop; `field in patch` on a non-dict
element raises or skips exactly as Python's `in` does. -/
def ppPatchFix (p : Value) : Except String Value :=
  match p with
  | .dict kvs => do
      let kvs ← ppPatchField kvs "Find"
      let kvs ← ppPatchField kvs "Replace"
      let kvs ← ppPatchField kvs "Mask"
      let kvs ← ppPatchField kvs "ReplaceMask"
      pure (.dict kvs)
  | v => do
      let check := fun (f : String) => do
        if ← pyContains v f then Except.error "TypeError: not subscriptable"
        else pure ()
      check "Find"
      check "Replace"
      check "Mask"
      check "ReplaceMask"
      pure v

/-- The `Kernel.Patch` pass of `post_process_config`. -/
def ppKernelPatchStep (ckvs : List (String × Value)) :
    Except String (List (String × Value)) := do
  match dictFind ckvs "Kernel" with
  | none => pure ckvs
  | some kv => do
      match ← sectionAdd? kv "Patch" with
      | none => pure ckvs
      | some (.arr xs) => do
          let xs' ← exMapM ppPatchFix xs
          match kv with
          | .dict kkvs =>
              pure (dictSet ckvs "Kernel" (.dict (dictSet kkvs "Patch" (.arr xs'))))
          | _ => .error "unreachable: subscript succeeded on non-dict"
      | some other => do
          -- iterating a non-list mutates nothing that is written back
          let ys ← pyIterList other
          let _ ← exMapM ppPatchFix ys
          pure ckvs

/-- The device properties `post_process_config` treats as binary. -/
def binaryProperties : List String :=
  ["layout-id", "device-id", "vendor-id", "subsystem-id",
   "subsystem-vendor-id", "built-in", "class-code", "compatible",
   "reg", "acpi-path", "acpi-device", "AAPL,slot-name",
   "pci-aspm-default", "AAPL,boot-display"]

/-- One device property: base64-decode strings of the known binary
properties, keeping the string when decoding fails. -/
def ppDeviceProp (kv : String × Value) : String × Value :=
  match kv.2 with
  | .str s =>
      if kv.1 ∈ binaryProperties then
        match base64Decode s with
        | some bs => (kv.1, .bytes bs)
        | none => (kv.1, .str s)
      else kv
  | _ => kv

/-- The `DeviceProperties` pass of `post_process_config`. -/
def ppDevicePropsStep (ckvs : List (String × Value)) :
    Except String (List (String × Value)) := do
  match dictFind ckvs "DeviceProperties" with
  | none => pure ckvs
  | some dpv => do
      match ← sectionAdd? dpv "Add" with
      | none => pure ckvs
      | some addv => do
          let devs ← pyItems addv
          let devs' ← exMapM (fun dv => do
            let props ← pyItems dv.2
            pure (dv.1, Value.dict (props.map ppDeviceProp))) devs
          match dpv, addv with
          | .dict dpkvs, _ =>
              pure (dictSet ckvs "DeviceProperties"
                (.dict (dictSet dpkvs "Add" (.dict devs'))))
          | _, _ => .error "unreachable: subscript succeeded on non-dict"

/-- The NVRAM variables `post_process_config` treats as binary. -/
def nvramBinaryVars : List String :=
  ["DefaultBackgroundColor", "csr-active-config", "prev-lang:kbd"]

/-- One NVRAM variable: base64-decode strings of the known binary
variables, keeping the string when decoding fails. -/
def ppNvramVar (kv : String × Value) : String × Value :=
  match kv.2 with
  | .str s =>
      if kv.1 ∈ nvramBinaryVars then
        match base64Decode s with
        | some bs => (kv.1, .bytes bs)
        | none => (kv.1, .str s)
      else kv
  | _ => kv

/-- The NVRAM pass of `post_process_config`. -/
def ppNvramStep (ckvs : List (String × Value)) :
    Except String (List (String × Value)) := do
  match dictFind ckvs "NVRAM" with
  | none => pure ckvs
  | some nvv => do
      match ← sectionAdd? nvv "Add" with
      | none => pure ckvs
      | some addv => do
          let guids ← pyItems addv
          let guids' ← exMapM (fun gv => do
            let vars ← pyItems gv.2
            pure (gv.1, Value.dict (vars.map ppNvramVar))) guids
          match nvv with
          | .dict nkvs =>
              pure (dictSet ckvs "NVRAM" (.dict (dictSet nkvs "Add" (.dict guids'))))
          | _ => .error "unreachable: subscript succeeded on non-dict"

/-- `key.startswith("#WARNING")`, written over the character lists so that
proofs can evaluate it (`String.startsWith` recurses on byte positions and
does not reduce once the string is at least as long as the prefix). -/
def strStartsWith (s pre : String) : Bool := pre.data.isPrefixOf s.data

/-- Drop `#WARNING...` keys of one named section (`config[s].keys()` raises
on non-dict sections). -/
def ppSectionWarnStep (ckvs : List (String × Value)) (s : String) :
    Except String (List (String × Value)) :=
  match dictFind ckvs s with
  | none => pure ckvs
  | some (.dict skvs) =>
      pure (dictSet ckvs s
        (.dict (skvs.filter (fun kv => ! strStartsWith kv.1 "#WARNING"))))
  | some _ => .error "AttributeError: keys"

/-- The `ACPI.Add` filter loop: keep entries whose `Enabled` is literally
`True`; `entry.get` raises on non-dict entries. -/
def ppFilterAcpiList : List Value → Except String (List Value)
  | [] => pure []
  | .dict ekvs :: rest => do
      let acc ← ppFilterAcpiList rest
      if dictFind ekvs "Enabled" = some (.bool true) then
        pure (Value.dict ekvs :: acc)
      else pure acc
  | _ :: _ => .error "AttributeError: get"

/-- The `ACPI.Add` filter of `post_process_config`. -/
def ppFilterAcpi (addv : Value) : Except String (List Value) :=
  match addv with
  | .arr xs => ppFilterAcpiList xs
  | other => do
      let ys ← pyIterList other
      if ys.isEmpty then pure []
      else .error "AttributeError: get"

/-- The `Kernel.Add` filter loop: keep entries whose `Enabled` is
literally `True`, adding a missing `ExecutablePath` to kept entries. -/
def ppFilterKernelList : List Value → Except String (List Value)
  | [] => pure []
  | .dict ekvs :: rest => do
      let acc ← ppFilterKernelList rest
      if dictFind ekvs "Enabled" = some (.bool true) then
        let ekvs := if (dictFind ekvs "ExecutablePath").isNone then
            dictSet ekvs "ExecutablePath" (.str "") else ekvs
        pure (Value.dict ekvs :: acc)
      else pure acc
  | _ :: _ => .error "AttributeError: get"

/-- The `Kernel.Add` filter of `post_process_config`. -/
def ppFilterKernelAdd (addv : Value) : Except String (List Value) :=
  match addv with
  | .arr xs => ppFilterKernelList xs
  | other => do
      let ys ← pyIterList other
      if ys.isEmpty then pure []
      else .error "AttributeError: get"

/-- Apply an `Add`-array filter to a named section of the root. -/
def ppFilterAddStep (ckvs : List (String × Value)) (s : String)
    (filt : Value → Except String (List Value)) :
    Except String (List (String × Value)) := do
  match dictFind ckvs s with
  | none => pure ckvs
  | some sv => do
      match ← sectionAdd? sv "Add" with
      | none => pure ckvs
      | some addv => do
          let filtered ← filt addv
          match sv with
          | .dict skvs =>
              pure (dictSet ckvs s (.dict (dictSet skvs "Add" (.arr filtered))))
          | _ => .error "unreachable: subscript succeeded on non-dict"

/-- `post_process_config` before the timestamp: all tree-level passes in
source order.  Non-dict roots raise (`config.keys()`). -/
def ppCore (cfg : Value) : Except String (List (String × Value)) := do
  match cfg with
  | .dict ckvs => do
      let ckvs ← ppKernelPatchStep ckvs
      let ckvs ← ppDevicePropsStep ckvs
      let ckvs ← ppNvramStep ckvs
      let ckvs := ckvs.filter (fun kv => ! strStartsWith kv.1 "#WARNING")
      let ckvs ← ppSectionWarnStep ckvs "ACPI"
      let ckvs ← ppSectionWarnStep ckvs "DeviceProperties"
      let ckvs ← ppFilterAddStep ckvs "ACPI" ppFilterAcpi
      let ckvs ← ppFilterAddStep ckvs "Kernel" ppFilterKernelAdd
      pure ckvs
  | _ => .error "AttributeError: keys"

/-- `post_process_config`: the passes above, then
`config['#Generated'] = <timestamp>`. -/
def postProcess (cfg : Value) (now : String) : Except String Value :=
  (ppCore cfg).map (fun ckvs => .dict (dictSet ckvs "#Generated" (.str now)))

/-! ## The JSON boundary between translator and patcher

Operations travel from `apply-changeset.py` to `patch-plist.py` as JSON;
`CustomJSONEncoder` renders Python `bytes` as lists of ints and
`json.loads` reads them back as lists, while bool/int/str/None/list/dict
survive unchanged. -/

mutual

/-- `json.loads(json.dumps(v, cls=CustomJSONEncoder))`. -/
def jsonRound : Value → Value
  | .bytes bs => .arr (bs.map (fun b => .int b))
  | .arr xs => .arr (jsonRoundList xs)
  | .dict kvs => .dict (jsonRoundKvs kvs)
  | v => v

/-- JSON round trip of a list. -/
def jsonRoundList : List Value → List Value
  | [] => []
  | v :: rest => jsonRound v :: jsonRoundList rest

/-- JSON round trip of a dict. -/
def jsonRoundKvs : List (String × Value) → List (String × Value)
  | [] => []
  | (k, v) :: rest => (k, jsonRound v) :: jsonRoundKvs rest

end

/-- JSON round trip of one operation record. -/
def jsonRoundOp : Op → Op
  | .set p v => .set p (jsonRound v)
  | .append p e k => .append p (jsonRound e) k
  | .merge p e => .merge p (jsonRound e)
  | .remove p k v => .remove p k (jsonRound v)

/-! ## AMD Vanilla patch handling (`lib/changeset.py` + `main`) -/

/-- Whitespace split (`new_hex.split()`; only blanks occur here). -/
def splitSpacesAux : List Char → List Char → List (List Char)
  | [], acc => if acc.isEmpty then [] else [acc.reverse]
  | c :: rest, acc =>
      if c = ' ' then
        if acc.isEmpty then splitSpacesAux rest []
        else acc.reverse :: splitSpacesAux rest []
      else splitSpacesAux rest (c :: acc)

/-- `s.split()`. -/
def splitSpaces (cs : List Char) : List (List Char) := splitSpacesAux cs []

/-- `int(tok, 16)` on a bare hex token. -/
def hexTokenVal (cs : List Char) : Option Nat :=
  match cs with
  | [] => none
  | _ => cs.foldl (fun acc c => do pure ((← acc) * 16 + (← hexVal? c)))
      (some 0)

/-- Python `s.replace(old, new)` (non-overlapping, left to right) for a
non-empty pattern. -/
def strReplaceGo (pat new : List Char) : Nat → List Char → List Char
  | 0, s => s
  | _ + 1, [] => []
  | fuel + 1, c :: rest =>
      if pat.isPrefixOf (c :: rest) then
        new ++ strReplaceGo pat new fuel ((c :: rest).drop pat.length)
      else c :: strReplaceGo pat new fuel rest

/-- `s.replace(old, new)`; the empty-pattern case is never used.  The fuel
starts at the string length and each step consumes at least one character
(the pattern, when it matches, is non-empty), so it never runs out. -/
def strReplace (pat new s : List Char) : List Char :=
  if pat = [] then s else strReplaceGo pat new s.length s

/-- The core-count byte patterns searched by
`modify_amd_core_count_patches`. -/
def amdPatterns : List (List Char) :=
  [("BA 00 00 00 00").data, ("B8 00 00 00 00").data, ("BA 00 00 00 90").data]

/-- `f'BA {core_count:02X} 00 00 00'`. -/
def amdNewPattern (core : Nat) : List Char :=
  ("BA ").data ++ byteToHexUpper core ++ (" 00 00 00").data

/-- The pattern loop with `break`: replace the first matching pattern. -/
def modifyAmdReplaceHex (hexStr : List Char) (core : Nat) : List Char :=
  match amdPatterns.find? (fun p => decide (List.IsInfix p hexStr)) with
  | some pat => strReplace pat (amdNewPattern core) hexStr
  | none => hexStr

/-- Does a patch comment mark a core-count patch? -/
def isCoreCountComment (s : String) : Bool :=
  let c := lowerStr s
  decide (List.IsInfix ("cpuid_cores_per_package").data c.data) ||
  decide (List.IsInfix ("force cpuid_cores_per_package").data c.data)

/-- `bytes(int(b, 16) for b in new_hex.split())`; `none` models the caught
`ValueError`. -/
def parseHexTokens (cs : List Char) : Option (List Nat) := do
  let vals ← (splitSpaces cs).mapM hexTokenVal
  if vals.all (fun v => v < 256) then pure vals else none

/-- One patch of `modify_amd_core_count_patches`: rewrite the `Replace`
pattern of core-count patches (bytes and base64-string forms), keeping the
original on any conversion failure (the caught exceptions). -/
def modifyAmdPatch (core : Nat) (p : Value) : Except String Value :=
  match p with
  | .dict kvs => do
      let comment ← match (dictFind kvs "Comment").getD (.str "") with
        | .str s => pure s
        | _ => .error "AttributeError: lower on non-str"
      if isCoreCountComment comment then
        match dictFind kvs "Replace" with
        | some (.bytes bs) =>
            let newHex := modifyAmdReplaceHex (hexJoinUpper bs) core
            match parseHexTokens newHex with
            | some vals => pure (.dict (dictSet kvs "Replace" (.bytes vals)))
            | none => pure (.dict kvs)
        | some (.str s) =>
            (match base64Decode s with
             | some bs =>
                 let newHex := modifyAmdReplaceHex (hexJoinUpper bs) core
                 match parseHexTokens newHex with
                 | some vals =>
                     pure (.dict (dictSet kvs "Replace"
                       (.str (String.mk (base64Encode vals)))))
                 | none => pure (.dict kvs)
             | none => pure (.dict kvs))
        | some _ => pure (.dict kvs)
        | none => pure (.dict kvs)
      else pure (.dict kvs)
  | _ => .error "AttributeError: copy on non-dict patch"

/-- `modify_amd_core_count_patches`: out-of-range core counts return the
patches unchanged. -/
def modifyAmdPatches (patches : List Value) (core : Int) :
    Except String (List Value) :=
  if core ≤ 0 ∨ core > 64 then pure patches
  else exMapM (modifyAmdPatch core.toNat) patches

/-- The legacy AMD detection loop of `main` (log-only, but `.get`/`.lower`
raise on malformed patches scanned before the first AMD comment). -/
def legacyAmdScan : List Value → Except String Unit
  | [] => pure ()
  | p :: rest =>
      match p with
      | .dict kvs =>
          match (dictFind kvs "Comment").getD (.str "") with
          | .str s =>
              let c := lowerStr s
              if decide (List.IsInfix ("amd").data c.data) ||
                 decide (List.IsInfix ("authenticamd").data c.data) ||
                 decide (List.IsInfix ("algrey").data c.data) then pure ()
              else legacyAmdScan rest
          | _ => .error "AttributeError: lower on non-str"
      | _ => .error "AttributeError: get on non-dict patch"

/-- The AMD block of `main`: when the flag is truthy and patches were
loaded (`amdLoaded` is the result of `load_amd_vanilla_patches`, an
external-file read), merge the core-count-modified patches into
`KernelPatches`; otherwise run the legacy log-only detection. -/
def amdStep (data : List (String × Value)) (amdLoaded : Option (List Value))
    (amdCores : Option Int) : Except String (List (String × Value)) := do
  let flag := get2D data "AmdVanillaPatches" "amd_vanilla_patches" (.bool false)
  if flag.pyTruthy then
    match amdLoaded with
    | some patches =>
        if !patches.isEmpty then do
          let core := match amdCores with
            | some n => if n ≠ 0 then n else 16
            | none => 16
          let modified ← modifyAmdPatches patches core
          let existing := get2D data "KernelPatches" "kernel_patches" (.arr [])
          if existing.pyTruthy then
            match existing with
            | .arr xs =>
                pure (dictSet data "KernelPatches" (.arr (xs ++ modified)))
            | _ => .error "TypeError: can only concatenate list"
          else pure (dictSet data "KernelPatches" (.arr modified))
        else pure data
    | none => pure data
  else
    match dictFind data "kernel_patches" with
    | some v => do
        let ps ← pyIterList v
        legacyAmdScan ps
        pure data
    | none => pure data

/-! ## The `main` pipeline of `apply-changeset.py`

One invocation of `apply-changeset.py` without `--dry-run`: validate,
mirror PlatformInfo into NVRAM, run the AMD step, translate to operations,
ship them over JSON, copy the template to the target path, run the patcher
on the copy, and post-process.  File-system-only steps (`copy_acpi_files`,
the final `validate-config.py` subprocess) do not touch the tree.  Any
`.error` is a nonzero exit before the template copy is overwritten
(validation and translation errors) or after (patcher errors). -/
def pipelineCore (template : Value) (changeset : List (String × Value))
    (amdLoaded : Option (List Value)) (amdCores : Option Int) :
    Except String Value := do
  validateStructureApply changeset
  let data ← applyPlatformInfoToNvram changeset
  let data ← amdStep data amdLoaded amdCores
  let ops ← changesetToOperations data
  let ops := ops.map jsonRoundOp
  patcherRun ops template

/-- The full `main` run: everything up to the patcher, then
`post_process_config` with the wall-clock timestamp. -/
def mainPipeline (template : Value) (changeset : List (String × Value))
    (amdLoaded : Option (List Value)) (amdCores : Option Int) (now : String) :
    Except String Value := do
  postProcess (← pipelineCore template changeset amdLoaded amdCores) now

/-! ## `scripts/plist-to-changeset.py` -/

mutual

/-- `convert_bytes_to_strings` from `plist-to-changeset.py`: empty bytes
are removed (`none`), bytes of length ≥ 4 become base64 strings, shorter
bytes stay bytes; dicts and lists drop removed members. -/
def convertBytesToStrings : Value → Option Value
  | .bytes bs =>
      if bs.isEmpty then none
      else if bs.length ≥ 4 then some (.str (String.mk (base64Encode bs)))
      else some (.bytes bs)
  | .dict kvs => some (.dict (cbsKvs kvs))
  | .arr xs => some (.arr (cbsList xs))
  | v => some v

/-- Dict loop of `convert_bytes_to_strings`. -/
def cbsKvs : List (String × Value) → List (String × Value)
  | [] => []
  | (k, v) :: rest =>
      match convertBytesToStrings v with
      | some v' => (k, v') :: cbsKvs rest
      | none => cbsKvs rest

/-- List comprehension of `convert_bytes_to_strings`. -/
def cbsList : List Value → List Value
  | [] => []
  | v :: rest =>
      match convertBytesToStrings v with
      | some v' => v' :: cbsList rest
      | none => cbsList rest

end

/-- Lookup of a key path through nested dicts. -/
def getAt : Value → List String → Option Value
  | v, [] => some v
  | .dict kvs, k :: rest =>
      match dictFind kvs k with
      | some w => getAt w rest
      | none => none
  | _, _ :: _ => none

theorem dictFind_dictSet_self (kvs : List (String × Value)) (k : String)
    (v : Value) : dictFind (dictSet kvs k v) k = some v := by
  induction kvs with
  | nil => simp [dictSet, dictFind]
  | cons kv rest ih =>
      obtain ⟨k', v'⟩ := kv
      by_cases h : k' = k
      · simp [dictSet, dictFind, h]
      · simp [dictSet, dictFind, h, ih]

theorem dictFind_dictSet_ne (kvs : List (String × Value)) (k k' : String)
    (v : Value) (h : k ≠ k') :
    dictFind (dictSet kvs k v) k' = dictFind kvs k' := by
  induction kvs with
  | nil => simp [dictSet, dictFind, h]
  | cons kv rest ih =>
      obtain ⟨k₀, v₀⟩ := kv
      by_cases h0 : k₀ = k
      · subst h0
        simp [dictSet, dictFind, h]
      · simp [dictSet, dictFind, h0, ih]

theorem dictFind_filter_key (p : String → Bool) (kvs : List (String × Value))
    (k : String) (hk : p k = true) :
    dictFind (kvs.filter (fun kv => p kv.1)) k = dictFind kvs k := by
  induction kvs with
  | nil => simp
  | cons kv rest ih =>
      obtain ⟨k₀, v₀⟩ := kv
      by_cases h0 : k₀ = k
      · subst h0
        simp [List.filter, hk, dictFind]
      · by_cases hp : p k₀
        · simp [List.filter, hp, dictFind, h0, ih]
        · simp [List.filter, hp, dictFind, h0, ih]

theorem dictSet_dictSet_self (kvs : List (String × Value)) (k : String)
    (v w : Value) : dictSet (dictSet kvs k v) k w = dictSet kvs k w := by
  induction kvs with
  | nil => simp [dictSet]
  | cons kv rest ih =>
      obtain ⟨k₀, v₀⟩ := kv
      by_cases h0 : k₀ = k
      · simp [dictSet, h0]
      · simp [dictSet, h0, ih]

theorem dictSet_same (kvs : List (String × Value)) (k : String) (v : Value)
    (h : dictFind kvs k = some v) : dictSet kvs k v = kvs := by
  induction kvs with
  | nil => simp [dictFind] at h
  | cons kv rest ih =>
      obtain ⟨k₀, v₀⟩ := kv
      by_cases h0 : k₀ = k
      · subst h0
        simp [dictFind] at h
        simp [dictSet, h]
      · simp [dictFind, h0] at h
        simp [dictSet, h0, ih h]

/-! ## Claim C3 — ROM normalisation -/

theorem hexVal?_digitChar : ∀ n, n < 16 → hexVal? (Nat.digitChar n) = some n := by
  decide

theorem digitChar_ne_x : ∀ n, n < 16 → Nat.digitChar n ≠ 'x' := by decide

theorem digitChar_ne_space : ∀ n, n < 16 → Nat.digitChar n ≠ ' ' := by decide

theorem hexVal?_digitCharUpper : ∀ n, n < 16 →
    hexVal? (digitCharUpper n) = some n := by decide

/-- Spaced lowercase hex rendering (`"aa bb cc"`). -/
def hexSpaced : List Nat → List Char
  | [] => []
  | [b] => byteToHexChars b
  | b :: rest => byteToHexChars b ++ ' ' :: hexSpaced rest

theorem stripOx_eq_self : ∀ l : List Char, (∀ c ∈ l, c ≠ 'x') → stripOx l = l
  | [], _ => rfl
  | [_], _ => rfl
  | c1 :: c2 :: rest, h => by
      have h2 : c2 ≠ 'x' := h c2 (by simp)
      show (if c1 = '0' ∧ c2 = 'x' then stripOx rest
        else c1 :: stripOx (c2 :: rest)) = _
      rw [if_neg (by rintro ⟨_, hx⟩; exact h2 hx),
        stripOx_eq_self (c2 :: rest) (fun c hc => h c (by simp [hc]))]

theorem fromHexChars_hexOfBytes : ∀ bs : List Nat, (∀ b ∈ bs, b < 256) →
    fromHexChars (hexOfBytes bs) = some bs := by
  intro bs
  induction bs with
  | nil => intro; rfl
  | cons b rest ih =>
      intro h
      have hb : b < 256 := h b (by simp)
      have h1 : b / 16 < 16 := by omega
      have h2 : b % 16 < 16 := by omega
      have e : hexOfBytes (b :: rest)
          = Nat.digitChar (b / 16) :: Nat.digitChar (b % 16) :: hexOfBytes rest := rfl
      rw [e, fromHexChars, hexVal?_digitChar _ h1, hexVal?_digitChar _ h2,
        ih (fun x hx => h x (by simp [hx]))]
      show some _ = _
      congr 2
      omega

theorem hexOfBytes_chars : ∀ bs : List Nat, (∀ b ∈ bs, b < 256) →
    ∀ c ∈ hexOfBytes bs, c ≠ 'x' ∧ c ≠ ' ' := by
  intro bs
  induction bs with
  | nil => intro _ c hc; simp [hexOfBytes] at hc
  | cons b rest ih =>
      intro h c hc
      have hb : b < 256 := h b (by simp)
      have h1 : b / 16 < 16 := by omega
      have h2 : b % 16 < 16 := by omega
      rcases List.mem_append.mp hc with hc | hc
      · simp only [byteToHexChars, List.mem_cons, List.mem_singleton] at hc
        rcases hc with rfl | hc
        · exact ⟨digitChar_ne_x _ h1, digitChar_ne_space _ h1⟩
        · rcases hc with rfl | hc
          · exact ⟨digitChar_ne_x _ h2, digitChar_ne_space _ h2⟩
          · simp at hc
      · exact ih (fun x hx => h x (by simp [hx])) c hc

theorem filter_hexSpaced : ∀ bs : List Nat, (∀ b ∈ bs, b < 256) →
    (hexSpaced bs).filter (fun c => c ≠ ' ') = hexOfBytes bs := by
  intro bs
  induction bs with
  | nil => intro; rfl
  | cons b rest ih =>
      intro h
      have hb : b < 256 := h b (by simp)
      have h1 : b / 16 < 16 := by omega
      have h2 : b % 16 < 16 := by omega
      match rest, ih, h with
      | [], _, h =>
          show List.filter _ (byteToHexChars b) = _
          simp [byteToHexChars, List.filter, hexOfBytes,
            digitChar_ne_space _ h1, digitChar_ne_space _ h2]
      | r :: rs, ih, h =>
          show List.filter _ (byteToHexChars b ++ ' ' :: hexSpaced (r :: rs)) = _
          rw [List.filter_append]
          have hrec := ih (fun x hx => h x (by simp [hx]))
          have e2 : List.filter (fun c => decide (c ≠ ' '))
              (' ' :: hexSpaced (r :: rs))
              = List.filter (fun c => decide (c ≠ ' ')) (hexSpaced (r :: rs)) := by
            simp [List.filter]
          have e1 : List.filter (fun c => decide (c ≠ ' ')) (byteToHexChars b)
              = byteToHexChars b := by
            simp [byteToHexChars, List.filter,
              digitChar_ne_space _ h1, digitChar_ne_space _ h2]
          show List.filter _ (byteToHexChars b) ++
            List.filter _ (' ' :: hexSpaced (r :: rs)) = _
          rw [e1, e2, hrec]
          rfl

theorem digitCharUpper_ne_x : ∀ n, n < 16 → digitCharUpper n ≠ 'x' := by decide

theorem digitCharUpper_ne_space : ∀ n, n < 16 → digitCharUpper n ≠ ' ' := by
  decide

/-- The character list under `hexUpperOfBytes`. -/
def hexUpperChars (bs : List Nat) : List Char :=
  bs.foldr (fun b acc => byteToHexUpper b ++ acc) []

theorem fromHexChars_hexUpperChars : ∀ bs : List Nat, (∀ b ∈ bs, b < 256) →
    fromHexChars (hexUpperChars bs) = some bs := by
  intro bs
  induction bs with
  | nil => intro; rfl
  | cons b rest ih =>
      intro h
      have hb : b < 256 := h b (by simp)
      have h1 : b / 16 < 16 := by omega
      have h2 : b % 16 < 16 := by omega
      have e : hexUpperChars (b :: rest)
          = digitCharUpper (b / 16) :: digitCharUpper (b % 16) ::
            hexUpperChars rest := rfl
      rw [e, fromHexChars, hexVal?_digitCharUpper _ h1,
        hexVal?_digitCharUpper _ h2, ih (fun x hx => h x (by simp [hx]))]
      show some _ = _
      congr 2
      omega

theorem hexUpperChars_chars : ∀ bs : List Nat, (∀ b ∈ bs, b < 256) →
    ∀ c ∈ hexUpperChars bs, c ≠ 'x' ∧ c ≠ ' ' := by
  intro bs
  induction bs with
  | nil => intro _ c hc; simp [hexUpperChars] at hc
  | cons b rest ih =>
      intro h c hc
      have hb : b < 256 := h b (by simp)
      have h1 : b / 16 < 16 := by omega
      have h2 : b % 16 < 16 := by omega
      rcases List.mem_append.mp hc with hc | hc
      · simp only [byteToHexUpper, List.mem_cons, List.mem_singleton] at hc
        rcases hc with rfl | hc
        · exact ⟨digitCharUpper_ne_x _ h1, digitCharUpper_ne_space _ h1⟩
        · rcases hc with rfl | hc
          · exact ⟨digitCharUpper_ne_x _ h2, digitCharUpper_ne_space _ h2⟩
          · simp at hc
      · exact ih (fun x hx => h x (by simp [hx])) c hc

theorem filter_space_eq_self (l : List Char) (h : ∀ c ∈ l, c ≠ ' ') :
    l.filter (fun c => c ≠ ' ') = l := by
  rw [List.filter_eq_self]
  intro a ha
  simp [h a ha]

theorem map_toByte_int (bs : List Nat) :
    (bs.map (fun n => Value.int (Int.ofNat n))).map Value.toByte = bs := by
  induction bs with
  | nil => rfl
  | cons b rest ih =>
      simp only [List.map_cons, List.cons.injEq]
      exact ⟨rfl, ih⟩

theorem intListToBytes_map (bs : List Nat) (h : ∀ b ∈ bs, b < 256) :
    intListToBytes (bs.map (fun n => Value.int (Int.ofNat n))) = .ok bs := by
  unfold intListToBytes bytesOfList
  rw [if_pos, map_toByte_int]
  rw [List.all_eq_true]
  intro x hx
  rcases List.mem_map.mp hx with ⟨b, hb, rfl⟩
  have := h b hb
  simp only [Value.isByteInt, Bool.and_eq_true, decide_eq_true_eq,
    Int.ofNat_eq_natCast]
  omega

/-- Claim C3: for every 6-byte sequence `b`, `normalize_rom_value` returns
`b` on all three changeset representations: the hex string of `b` (plain,
space-separated, `0x`-prefixed, lower or upper case), the list of `b`'s
integer byte values, and the raw bytes. -/
theorem rom_normalization_consistent (bs : List Nat)
    (hlen : bs.length = 6) (hb : ∀ b ∈ bs, b < 256) :
    normalizeRomValue (.str (String.mk (hexOfBytes bs))) = .ok bs ∧
    normalizeRomValue (.str (String.mk ('0' :: 'x' :: hexOfBytes bs))) = .ok bs ∧
    normalizeRomValue (.str (String.mk (hexSpaced bs))) = .ok bs ∧
    normalizeRomValue (.str (String.mk (hexUpperChars bs))) = .ok bs ∧
    normalizeRomValue (.arr (bs.map (fun n => Value.int (Int.ofNat n)))) = .ok bs ∧
    normalizeRomValue (.bytes bs) = .ok bs := by
  have hchars := hexOfBytes_chars bs hb
  have hplain : hexStringToBytes (String.mk (hexOfBytes bs)) = some bs := by
    unfold hexStringToBytes
    rw [show (String.mk (hexOfBytes bs)).data = hexOfBytes bs from rfl]
    rw [filter_space_eq_self _ (fun c hc => (hchars c hc).2)]
    rw [stripOx_eq_self _ (fun c hc => (hchars c hc).1)]
    exact fromHexChars_hexOfBytes bs hb
  refine ⟨?_, ?_, ?_, ?_, ?_, ?_⟩
  · simp only [normalizeRomValue, hplain]
  · simp only [normalizeRomValue, hexStringToBytes]
    have e1 : List.filter (fun c => decide (c ≠ ' ')) ('0' :: 'x' :: hexOfBytes bs)
        = '0' :: 'x' :: List.filter (fun c => decide (c ≠ ' ')) (hexOfBytes bs) := by
      simp [List.filter]
    rw [e1, filter_space_eq_self _ (fun c hc => (hchars c hc).2)]
    have e0x : stripOx ('0' :: 'x' :: hexOfBytes bs) = stripOx (hexOfBytes bs) := by
      cases hOf : hexOfBytes bs with
      | nil => rfl
      | cons c cs => simp [stripOx]
    rw [e0x, stripOx_eq_self _ (fun c hc => (hchars c hc).1),
      fromHexChars_hexOfBytes bs hb]
  · simp only [normalizeRomValue, hexStringToBytes]
    rw [filter_hexSpaced bs hb,
      stripOx_eq_self _ (fun c hc => (hchars c hc).1),
      fromHexChars_hexOfBytes bs hb]
  · have huchars := hexUpperChars_chars bs hb
    simp only [normalizeRomValue, hexStringToBytes]
    rw [filter_space_eq_self _ (fun c hc => (huchars c hc).2),
      stripOx_eq_self _ (fun c hc => (huchars c hc).1),
      fromHexChars_hexUpperChars bs hb]
  · simp only [normalizeRomValue, intListToBytes_map bs hb]
  · rfl

/-- Witness for C3 at the 6-byte sequence `11 22 33 44 55 66`. -/
theorem rom_normalization_consistent_witness :
    ([17, 34, 51, 68, 85, 102] : List Nat).length = 6 ∧
    normalizeRomValue (.bytes [17, 34, 51, 68, 85, 102]) =
      .ok [17, 34, 51, 68, 85, 102] :=
  ⟨by decide,
   (rom_normalization_consistent [17, 34, 51, 68, 85, 102] (by decide)
     (by decide)).2.2.2.2.2⟩

/-! ## Claim C9 — `set_key`'s list coercion -/

/-- Writing a value along a `setdefault` path stores it at that path. -/
theorem withLeaf_set_getAt : ∀ (obj : Value) (path : List String) (v res : Value),
    withLeaf obj path (fun kvs k => pure (dictSet kvs k v)) = .ok res →
    getAt res path = some v := by
  intro obj path
  induction path generalizing obj with
  | nil => intro v res h; cases obj <;> simp [withLeaf] at h
  | cons k rest ih =>
      intro v res h
      cases rest with
      | nil =>
          cases obj <;> simp [withLeaf, pure, Except.pure, bind, Except.bind] at h
          rename_i kvs
          subst h
          simp [getAt, dictFind_dictSet_self]
      | cons k' rest' =>
          cases obj <;> simp [withLeaf] at h
          rename_i kvs
          cases hs : withLeaf ((dictFind kvs k).getD (.dict [])) (k' :: rest')
              (fun kvs k => pure (dictSet kvs k v)) with
          | error e => rw [hs] at h; simp at h
          | ok sub' =>
              rw [hs] at h
              simp at h
              subst h
              simp only [getAt, dictFind_dictSet_self]
              exact ih _ v sub' hs

/-- Counterexample to C9 as stated: for the field `Foo`, which is not one
of the known binary fields, `set_key` still stores an empty list as empty
bytes — the empty-list conversion is not conditional on the field name. -/
theorem set_key_empty_list_unconditional :
    "Foo" ∉ binKeys ∧
    setKey (.dict []) ["Foo"] (.arr []) = .ok (.dict [("Foo", .bytes [])]) :=
  ⟨by decide, rfl⟩

/-- Amended C9: `set_key` coerces every list whose elements are all ints
(or bools) in `0..255` to bytes, for every target key; this includes the
empty list, vacuously, so the field-name-conditional `elif` branch of the
source is unreachable and an empty list becomes empty bytes for every
field. -/
theorem set_key_coerces_all_byte_int_lists :
    (∀ (f : String) (xs : List Value), xs.all Value.isByteInt = true →
      setCoerce f (.arr xs) = .bytes (xs.map Value.toByte)) ∧
    (∀ (kvs : List (String × Value)) (path : List String) (xs : List Value)
      (res : Value), xs.all Value.isByteInt = true →
      setKey (.dict kvs) path (.arr xs) = .ok res →
      getAt res path = some (.bytes (xs.map Value.toByte))) := by
  have part1 : ∀ (f : String) (xs : List Value), xs.all Value.isByteInt = true →
      setCoerce f (.arr xs) = .bytes (xs.map Value.toByte) := by
    intro f xs h
    simp [setCoerce, h]
  refine ⟨part1, ?_⟩
  intro kvs path xs res hall h
  unfold setKey at h
  rw [part1 _ _ hall] at h
  exact withLeaf_set_getAt _ _ _ _ h

/-- Witness for amended C9: setting `[1]` at the non-binary field `Foo`
stores bytes `01`. -/
theorem set_key_coerces_all_byte_int_lists_witness :
    ([Value.int 1].all Value.isByteInt = true) ∧
    getAt (.dict [("Foo", .bytes [1])]) ["Foo"] = some (.bytes [1]) :=
  ⟨by decide,
   set_key_coerces_all_byte_int_lists.2 [] ["Foo"] [Value.int 1]
     (.dict [("Foo", .bytes [1])]) (by decide) rfl⟩

/-! ## Claim C8 — missing recommended sections warn, never error -/

/-- The `kexts` section, when present, is a list of dicts that each carry a
`bundle` field (the shapes the library validator accepts without error). -/
def kextsSectionOk (data : List (String × Value)) : Prop :=
  match dictFind data "kexts" with
  | none => True
  | some (.arr ks) =>
      ∀ kx ∈ ks, ∃ kvs, kx = Value.dict kvs ∧ (dictFind kvs "bundle").isSome
  | some _ => False

/-- A section, when present, is a mapping. -/
def dictSectionOk (data : List (String × Value)) (s : String) : Prop :=
  match dictFind data s with
  | none => True
  | some (.dict _) => True
  | some _ => False

theorem kextIssues_no_errors : ∀ (ks : List Value) (i : Nat),
    (∀ kx ∈ ks, ∃ kvs, kx = Value.dict kvs ∧ (dictFind kvs "bundle").isSome) →
    (kextIssues ks i).1 = [] := by
  intro ks
  induction ks with
  | nil => intro i _; rfl
  | cons kx rest ih =>
      intro i h
      obtain ⟨kvs, hkx, hb⟩ := h kx (by simp)
      subst hkx
      simp only [kextIssues]
      rw [ih (i + 1) (fun x hx => h x (by simp [hx]))]
      rcases Option.isSome_iff_exists.mp hb with ⟨w, hw⟩
      simp [hw]

/-- Claim C8: for every changeset mapping whose `kexts`/`smbios`/
`device_properties` sections (when present) are well-shaped, validation
produces no errors, and each missing recommended section
(`kexts`, `booter_quirks`, `kernel_quirks`) is reported as a warning — so a
merely missing recommended section contributes a warning, never an
error. -/
theorem missing_sections_warn_not_error (data : List (String × Value))
    (hk : kextsSectionOk data) (hs : dictSectionOk data "smbios")
    (hd : dictSectionOk data "device_properties") :
    (validateChangesetStructureLib data).errors = [] ∧
    ∀ s ∈ requiredSections, dictFind data s = none →
      ("Missing recommended section: " ++ s) ∈
        (validateChangesetStructureLib data).warnings := by
  constructor
  · unfold validateChangesetStructureLib
    simp only
    unfold kextsSectionOk at hk
    unfold dictSectionOk at hs hd
    cases hx : dictFind data "kexts" with
    | none =>
        cases hy : dictFind data "smbios" with
        | none =>
            cases hz : dictFind data "device_properties" with
            | none => simp [hx, hy, hz]
            | some vz =>
                rw [hz] at hd
                cases vz <;> simp_all [hx, hy, hz]
        | some vy =>
            rw [hy] at hs
            cases vy <;> try simp_all
            cases hz : dictFind data "device_properties" with
            | none => simp [hx, hy, hz]
            | some vz =>
                rw [hz] at hd
                cases vz <;> simp_all [hx, hy, hz]
    | some vx =>
        rw [hx] at hk
        cases vx <;> try simp_all
        rename_i ks
        have he := kextIssues_no_errors ks 0 hk
        cases hy : dictFind data "smbios" with
        | none =>
            cases hz : dictFind data "device_properties" with
            | none => simp [hx, hy, hz, he]
            | some vz =>
                rw [hz] at hd
                cases vz <;> simp_all [hx, hy, hz, he]
        | some vy =>
            rw [hy] at hs
            cases vy <;> try simp_all
            cases hz : dictFind data "device_properties" with
            | none => simp [hx, hy, hz, he]
            | some vz =>
                rw [hz] at hd
                cases vz <;> simp_all [hx, hy, hz, he]
  · intro s hs0 hnone
    unfold validateChangesetStructureLib
    simp only [Issues.warnings]
    apply List.mem_append.mpr
    left
    apply List.mem_append.mpr
    left
    apply List.mem_filterMap.mpr
    exact ⟨s, hs0, by simp [hnone]⟩

/-- Witness for C8 at the empty changeset: no errors, and the missing
`kexts` section is warned about. -/
theorem missing_sections_warn_not_error_witness :
    (validateChangesetStructureLib []).errors = [] ∧
    ("Missing recommended section: " ++ "kexts") ∈
      (validateChangesetStructureLib []).warnings :=
  ⟨(missing_sections_warn_not_error [] trivial trivial trivial).1,
   (missing_sections_warn_not_error [] trivial trivial trivial).2 "kexts"
     (by decide) rfl⟩

/-! ## Claim C1 — `append_unique` keeps discriminator fields unique -/

/-- No two dict entries of the array agree (Python `==`) on field `k`. -/
def NoDupKey (arr : List Value) (k : String) : Prop :=
  arr.Pairwise (fun x y =>
    ¬(x.isDict = true ∧ y.isDict = true ∧ pyEq (pyGet x k) (pyGet y k) = true))

theorem appendDupCheck_false {arr : List Value} {e : Value} {k : String}
    (h : appendDupCheck arr e k = .ok false) :
    ∀ x ∈ arr, x.isDict = true → pyEq (pyGet x k) (pyGet e k) = false := by
  induction arr with
  | nil => intro x hx; simp at hx
  | cons a rest ih =>
      intro x hx hxd
      unfold appendDupCheck at h
      by_cases had : a.isDict
      · rw [if_pos had] at h
        by_cases hed : e.isDict
        · rw [if_pos hed] at h
          by_cases hpe : pyEq (pyGet a k) (pyGet e k) = true
          · rw [if_pos hpe] at h; simp at h
          · rw [if_neg hpe] at h
            rcases List.mem_cons.mp hx with rfl | hx
            · simpa using hpe
            · exact ih h x hx hxd
        · rw [if_neg hed] at h; simp at h
      · rw [if_neg had] at h
        rcases List.mem_cons.mp hx with rfl | hx
        · exact absurd hxd had
        · exact ih h x hx hxd

theorem appendDupCheck_complete {arr : List Value} {e : Value} {k : String}
    (hed : e.isDict = true)
    (hex : ∃ x ∈ arr, x.isDict = true ∧ pyEq (pyGet x k) (pyGet e k) = true) :
    appendDupCheck arr e k = .ok true := by
  induction arr with
  | nil => rcases hex with ⟨x, hx, _⟩; simp at hx
  | cons a rest ih =>
      unfold appendDupCheck
      rcases hex with ⟨x, hx, hxd, hpe⟩
      by_cases had : a.isDict
      · rw [if_pos had, if_pos hed]
        by_cases hpa : pyEq (pyGet a k) (pyGet e k) = true
        · rw [if_pos hpa]
        · rw [if_neg hpa]
          rcases List.mem_cons.mp hx with rfl | hx
          · exact absurd hpe hpa
          · exact ih ⟨x, hx, hxd, hpe⟩
      · rw [if_neg had]
        rcases List.mem_cons.mp hx with rfl | hx
        · exact absurd hxd had
        · exact ih ⟨x, hx, hxd, hpe⟩

theorem convKvs_dictFind_str {kvs kvs' : List (String × Value)}
    (h : convKvs kvs = .ok kvs') (k s : String)
    (hf : dictFind kvs k = some (.str s)) : dictFind kvs' k = some (.str s) := by
  induction kvs generalizing kvs' with
  | nil => simp [dictFind] at hf
  | cons kv rest ih =>
      obtain ⟨k0, v0⟩ := kv
      unfold convKvs at h
      cases hc : convEntryVal k0 v0 with
      | error e => rw [hc] at h; simp [bind, Except.bind] at h
      | ok v' =>
          rw [hc] at h
          cases hr : convKvs rest with
          | error e => rw [hr] at h; simp [bind, Except.bind] at h
          | ok rest' =>
              rw [hr] at h
              simp [bind, Except.bind, pure, Except.pure] at h
              subst h
              by_cases hk0 : k0 = k
              · subst hk0
                rw [show dictFind ((k0, v0) :: rest) k0 = some v0 from by
                  simp [dictFind]] at hf
                injection hf with hf0
                subst hf0
                simp [convEntryVal, pure, Except.pure] at hc
                subst hc
                simp [dictFind]
              · rw [show dictFind ((k0, v0) :: rest) k = dictFind rest k from by
                  simp [dictFind, hk0]] at hf
                rw [show dictFind ((k0, v') :: rest') k = dictFind rest' k from by
                  simp [dictFind, hk0]]
                exact ih hr hf

theorem convDict_pyGet_str {e e' : Value} (h : convDict e = .ok e')
    (k s : String) (hf : pyGet e k = .str s) : pyGet e' k = .str s := by
  cases e with
  | dict kvs =>
      simp only [convDict] at h
      cases hc : convKvs kvs with
      | error err => rw [hc] at h; simp [bind, Except.bind] at h
      | ok kvs' =>
          rw [hc] at h
          simp [bind, Except.bind, pure, Except.pure] at h
          subst h
          simp only [pyGet] at hf ⊢
          cases hfile : dictFind kvs k with
          | none => rw [hfile] at hf; simp at hf
          | some w =>
              rw [hfile] at hf
              simp at hf
              subst hf
              rw [convKvs_dictFind_str hc k s hfile]
              rfl
  | null => simp [pyGet] at hf
  | bool b => simp [pyGet] at hf
  | int n => simp [pyGet] at hf
  | str t => simp [pyGet] at hf
  | bytes bs => simp [pyGet] at hf
  | arr xs => simp [pyGet] at hf

theorem convDict_isDict {e e' : Value} (hd : e.isDict = true)
    (h : convDict e = .ok e') : e'.isDict = true := by
  cases e with
  | dict kvs =>
      simp only [convDict] at h
      cases hc : convKvs kvs with
      | error err => rw [hc] at h; simp [bind, Except.bind] at h
      | ok kvs' =>
          rw [hc] at h
          simp [bind, Except.bind, pure, Except.pure] at h
          subst h
          simp [Value.isDict]
  | null => simp [Value.isDict] at hd
  | bool b => simp [Value.isDict] at hd
  | int n => simp [Value.isDict] at hd
  | str t => simp [Value.isDict] at hd
  | bytes bs => simp [Value.isDict] at hd
  | arr xs => simp [Value.isDict] at hd

/-- Claim C1: with a discriminator key `k` (`BundlePath`, `Path` or `Name`,
whose values are strings), if no two dict entries of the array share the
`k` field, then after `append_unique` no two entries share it; and
appending an entry whose `k` value already occurs leaves the array
unchanged. -/
theorem append_unique_preserves_key_uniqueness
    (arr : List Value) (entry : Value) (k : String)
    (hk : k = "BundlePath" ∨ k = "Path" ∨ k = "Name")
    (hinv : NoDupKey arr k)
    (res : List Value) (h : appendUniqueList arr entry (some k) = .ok res) :
    NoDupKey res k ∧
    (∀ s, pyGet entry k = .str s →
      (∃ x ∈ arr, x.isDict = true ∧ pyEq (pyGet x k) (pyGet entry k) = true) →
      res = arr) := by
  unfold appendUniqueList at h
  by_cases hed : entry.isDict
  · rw [if_pos hed] at h
    cases hc : convDict entry with
    | error err => rw [hc] at h; simp [bind, Except.bind] at h
    | ok entry' =>
        rw [hc] at h
        simp only [bind, Except.bind] at h
        cases hd : appendDupCheck arr entry' k with
        | error err => rw [hd] at h; simp at h
        | ok b =>
            rw [hd] at h
            cases b with
            | true =>
                simp [pure, Except.pure] at h
                subst h
                exact ⟨hinv, fun _ _ _ => rfl⟩
            | false =>
                simp [pure, Except.pure] at h
                subst h
                constructor
                · unfold NoDupKey
                  rw [List.pairwise_append]
                  refine ⟨hinv, by simp, ?_⟩
                  intro x hx y hy
                  simp only [List.mem_singleton] at hy
                  subst hy
                  rintro ⟨hxd, _, hpe⟩
                  rw [appendDupCheck_false hd x hx hxd] at hpe
                  exact absurd hpe (by simp)
                · intro s hs hex
                  exfalso
                  have hs' : pyGet entry' k = .str s := convDict_pyGet_str hc k s hs
                  have hed' : entry'.isDict = true := convDict_isDict (by simpa using hed) hc
                  have : appendDupCheck arr entry' k = .ok true := by
                    apply appendDupCheck_complete hed'
                    rcases hex with ⟨x, hx, hxd, hpe⟩
                    rw [hs] at hpe
                    exact ⟨x, hx, hxd, by rw [hs']; exact hpe⟩
                  rw [this] at hd
                  simp at hd
  · rw [if_neg hed] at h
    simp only [pure, Except.pure, bind, Except.bind] at h
    cases hd : appendDupCheck arr entry k with
    | error err => rw [hd] at h; simp at h
    | ok b =>
        rw [hd] at h
        cases b with
        | true =>
            simp at h
            subst h
            exact ⟨hinv, fun _ _ _ => rfl⟩
        | false =>
            simp at h
            subst h
            constructor
            · unfold NoDupKey
              rw [List.pairwise_append]
              refine ⟨hinv, by simp, ?_⟩
              intro x hx y hy
              simp only [List.mem_singleton] at hy
              subst hy
              rintro ⟨_, hyd, _⟩
              exact absurd hyd (by simpa using hed)
            · intro s hs _
              exfalso
              cases entry <;> simp [pyGet] at hs <;> simp [Value.isDict] at hed

/-- Witness for C1: appending an ACPI entry whose `Path` already occurs
leaves the array unchanged and keeps it duplicate-free. -/
theorem append_unique_preserves_key_uniqueness_witness :
    NoDupKey [Value.dict [("Path", .str "A.aml")]] "Path" ∧
    (NoDupKey [Value.dict [("Path", .str "A.aml")]] "Path" ∧
     (∀ s, pyGet (Value.dict [("Path", .str "A.aml"), ("Enabled", .bool true)])
         "Path" = .str s →
       (∃ x ∈ [Value.dict [("Path", .str "A.aml")]], x.isDict = true ∧
         pyEq (pyGet x "Path")
           (pyGet (Value.dict [("Path", .str "A.aml"), ("Enabled", .bool true)])
             "Path") = true) →
       [Value.dict [("Path", .str "A.aml")]] =
         [Value.dict [("Path", .str "A.aml")]])) := by
  have hinv : NoDupKey [Value.dict [("Path", .str "A.aml")]] "Path" := by
    unfold NoDupKey
    exact List.pairwise_singleton _ _
  exact ⟨hinv,
    append_unique_preserves_key_uniqueness
      [Value.dict [("Path", .str "A.aml")]]
      (Value.dict [("Path", .str "A.aml"), ("Enabled", .bool true)])
      "Path" (Or.inr (Or.inl rfl)) hinv
      [Value.dict [("Path", .str "A.aml")]] (by rfl)⟩

/-! ## Claim C7 — the `remove` operation -/

/-- Claim C7: when `path` names an array in the tree, `remove` succeeds,
replaces exactly that array by its elements that are not dicts whose `key`
field `==` the given value (keeping their relative order — a `filter`), and
leaves every location that is not on the path to that array unchanged. -/
theorem remove_filters_array : ∀ (t : Value) (path : List String) (k : String)
    (v : Value) (xs : List Value), path ≠ [] →
    getAt t path = some (.arr xs) →
    ∃ t', removeOp t path k v = .ok t' ∧
      getAt t' path = some (.arr (xs.filter
        (fun x => !(x.isDict && pyEq (pyGet x k) v)))) ∧
      ∀ q, ¬ List.IsPrefix path q → ¬ List.IsPrefix q path →
        getAt t' q = getAt t q := by
  intro t path
  induction path generalizing t with
  | nil => intro k v xs hne; exact absurd rfl hne
  | cons k1 rest ih =>
      intro k v xs _ hget
      cases t with
      | dict kvs =>
          simp only [getAt] at hget
          cases hfind : dictFind kvs k1 with
          | none => rw [hfind] at hget; simp at hget
          | some w =>
              rw [hfind] at hget
              cases rest with
              | nil =>
                  simp only [getAt] at hget
                  injection hget with hw
                  subst hw
                  refine ⟨.dict (dictSet kvs k1 (.arr (xs.filter
                    (fun x => !(x.isDict && pyEq (pyGet x k) v))))), ?_, ?_, ?_⟩
                  · simp [removeOp, hfind, pyIterList, bind, Except.bind, pure,
                      Except.pure]
                  · simp [getAt, dictFind_dictSet_self]
                  · intro q hq1 hq2
                    cases q with
                    | nil => exact absurd (List.nil_prefix) hq2
                    | cons p qs =>
                        by_cases hp : k1 = p
                        · subst hp
                          exact absurd (List.cons_prefix_cons.mpr
                            ⟨rfl, List.nil_prefix⟩) hq1
                        · simp [getAt, dictFind_dictSet_ne kvs k1 p _ hp, hfind,
                            dictFind]
              | cons k2 rest' =>
                  obtain ⟨w', hok, hgets, hframe⟩ :=
                    ih w k v xs (by simp) hget
                  refine ⟨.dict (dictSet kvs k1 w'), ?_, ?_, ?_⟩
                  · simp only [removeOp, hfind, hok, bind, Except.bind, pure,
                      Except.pure]
                  · simp [getAt, dictFind_dictSet_self, hgets]
                  · intro q hq1 hq2
                    cases q with
                    | nil => exact absurd (List.nil_prefix) hq2
                    | cons p qs =>
                        by_cases hp : k1 = p
                        · subst hp
                          have h1 : ¬ List.IsPrefix (k2 :: rest') qs := by
                            intro hc
                            exact hq1 (List.cons_prefix_cons.mpr ⟨rfl, hc⟩)
                          have h2 : ¬ List.IsPrefix qs (k2 :: rest') := by
                            intro hc
                            exact hq2 (List.cons_prefix_cons.mpr ⟨rfl, hc⟩)
                          simp [getAt, dictFind_dictSet_self, hfind,
                            hframe qs h1 h2]
                        · simp [getAt, dictFind_dictSet_ne kvs k1 p _ hp]
      | null => simp [getAt] at hget
      | bool b => simp [getAt] at hget
      | int n => simp [getAt] at hget
      | str s => simp [getAt] at hget
      | bytes bs => simp [getAt] at hget
      | arr ys => simp [getAt] at hget

/-- Witness for C7: removing `Path = A.aml` from an `ACPI.Add` array keeps
the other entries (and non-dict elements) in order. -/
theorem remove_filters_array_witness :
    ((["ACPI", "Add"] : List String) ≠ [] ∧
      getAt (.dict [("ACPI", .dict [("Add", .arr
        [Value.dict [("Path", .str "A.aml")],
         Value.dict [("Path", .str "B.aml")], .str "junk"])])])
        ["ACPI", "Add"] = some (.arr
        [Value.dict [("Path", .str "A.aml")],
         Value.dict [("Path", .str "B.aml")], .str "junk"])) ∧
    (∃ t', removeOp (.dict [("ACPI", .dict [("Add", .arr
        [Value.dict [("Path", .str "A.aml")],
         Value.dict [("Path", .str "B.aml")], .str "junk"])])])
        ["ACPI", "Add"] "Path" (.str "A.aml") = .ok t' ∧
      getAt t' ["ACPI", "Add"] = some (.arr
        ([Value.dict [("Path", .str "A.aml")],
          Value.dict [("Path", .str "B.aml")], .str "junk"].filter
          (fun x => !(x.isDict && pyEq (pyGet x "Path") (.str "A.aml"))))) ∧
      ∀ q, ¬ List.IsPrefix ["ACPI", "Add"] q →
        ¬ List.IsPrefix q ["ACPI", "Add"] →
        getAt t' q = getAt (.dict [("ACPI", .dict [("Add", .arr
          [Value.dict [("Path", .str "A.aml")],
           Value.dict [("Path", .str "B.aml")], .str "junk"])])]) q) :=
  ⟨⟨by simp, rfl⟩,
   remove_filters_array _ ["ACPI", "Add"] "Path" (.str "A.aml") _
     (by simp) rfl⟩

/-! ## Claim C2 — re-applying a changeset -/

/-- Drop the root `#Generated` binding. -/
def eraseGenerated (v : Value) : Value :=
  match v with
  | .dict kvs => .dict (dictDel kvs "#Generated")
  | v => v

/-- Counterexample to C2 as stated: two runs of the full apply pipeline on
the same template and changeset differ whenever their `datetime.now()`
timestamps format differently — the output is not byte-identical, it
differs at the `#Generated` key. -/
theorem apply_twice_not_byte_identical :
    mainPipeline (.dict []) [] none none "2024-01-01 00:00:00" =
      .ok (.dict [("#Generated", .str "2024-01-01 00:00:00")]) ∧
    mainPipeline (.dict []) [] none none "2024-01-01 00:00:01" =
      .ok (.dict [("#Generated", .str "2024-01-01 00:00:01")]) ∧
    Value.dict [("#Generated", .str "2024-01-01 00:00:00")] ≠
      Value.dict [("#Generated", .str "2024-01-01 00:00:01")] :=
  ⟨rfl, rfl, by decide⟩

theorem dictDel_dictSet (kvs : List (String × Value)) (k : String) (v : Value) :
    dictDel (dictSet kvs k v) k = dictDel kvs k := by
  induction kvs with
  | nil => simp [dictSet, dictDel, List.filter]
  | cons kv rest ih =>
      obtain ⟨k0, v0⟩ := kv
      by_cases h0 : k0 = k
      · subst h0
        simp [dictSet, dictDel, List.filter]
      · simp only [dictSet, if_neg h0]
        unfold dictDel at ih ⊢
        simp only [List.filter_cons]
        rw [ih]

theorem dictFind_dictUpdate_not_mem (a e : List (String × Value)) (k : String)
    (hk : k ∉ e.map Prod.fst) : dictFind (dictUpdate a e) k = dictFind a k := by
  induction e generalizing a with
  | nil => rfl
  | cons kv rest ih =>
      obtain ⟨k2, v2⟩ := kv
      simp only [List.map_cons, List.mem_cons] at hk
      push_neg at hk
      show dictFind (dictUpdate (dictSet a k2 v2) rest) k = _
      rw [ih _ hk.2, dictFind_dictSet_ne _ _ _ _ (fun h => hk.1 h.symm)]

theorem dictUpdate_idem (a e : List (String × Value))
    (hnd : (e.map Prod.fst).Nodup) :
    dictUpdate (dictUpdate a e) e = dictUpdate a e := by
  induction e generalizing a with
  | nil => rfl
  | cons kv rest ih =>
      obtain ⟨k, v⟩ := kv
      simp only [List.map_cons, List.nodup_cons] at hnd
      show dictUpdate (dictSet (dictUpdate (dictSet a k v) rest) k v) rest = _
      have hfind : dictFind (dictUpdate (dictSet a k v) rest) k = some v := by
        rw [dictFind_dictUpdate_not_mem _ _ _ hnd.1, dictFind_dictSet_self]
      rw [dictSet_same _ _ _ hfind]
      exact ih _ hnd.2

/-- A leaf function that is idempotent on success makes the whole
`setdefault` walk idempotent. -/
theorem withLeaf_idem
    (leaf : List (String × Value) → String → Except String (List (String × Value)))
    (hleaf : ∀ kvs k kvs', leaf kvs k = .ok kvs' → leaf kvs' k = .ok kvs') :
    ∀ (obj : Value) (path : List String) (r : Value),
      withLeaf obj path leaf = .ok r → withLeaf r path leaf = .ok r := by
  intro obj path
  induction path generalizing obj with
  | nil => intro r h; cases obj <;> simp [withLeaf] at h
  | cons k rest ih =>
      intro r h
      cases rest with
      | nil =>
          cases obj <;> simp only [withLeaf] at h
          case dict kvs =>
            cases hl : leaf kvs k with
            | error e => rw [hl] at h; simp [bind, Except.bind] at h
            | ok kvs1 =>
                rw [hl] at h
                simp [bind, Except.bind, pure, Except.pure] at h
                subst h
                simp only [withLeaf]
                rw [hleaf _ _ _ hl]
                rfl
          all_goals simp at h
      | cons k2 rest' =>
          cases obj <;> simp only [withLeaf] at h <;> try simp at h
          case dict kvs =>
            cases hs : withLeaf ((dictFind kvs k).getD (.dict []))
                (k2 :: rest') leaf with
            | error e => rw [hs] at h; simp [bind, Except.bind] at h
            | ok sub' =>
                rw [hs] at h
                simp [bind, Except.bind, pure, Except.pure] at h
                subst h
                simp only [withLeaf, dictFind_dictSet_self, Option.getD_some]
                rw [ih _ sub' hs]
                simp [bind, Except.bind, pure, Except.pure, dictSet_dictSet_self]

theorem convDict_kvs {ekvs cekvs : List (String × Value)}
    (h : convDict (.dict ekvs) = .ok (.dict cekvs)) :
    convKvs ekvs = .ok cekvs := by
  simp only [convDict] at h
  cases hc : convKvs ekvs with
  | error e => rw [hc] at h; simp [bind, Except.bind] at h
  | ok kvs' =>
      rw [hc] at h
      simp [bind, Except.bind, pure, Except.pure] at h
      rw [h]

theorem convKvs_keys {kvs kvs' : List (String × Value)}
    (h : convKvs kvs = .ok kvs') : kvs'.map Prod.fst = kvs.map Prod.fst := by
  induction kvs generalizing kvs' with
  | nil =>
      simp only [convKvs, pure, Except.pure, Except.ok.injEq] at h
      subst h; rfl
  | cons kv rest ih =>
      obtain ⟨k0, v0⟩ := kv
      unfold convKvs at h
      cases hc : convEntryVal k0 v0 with
      | error e => rw [hc] at h; simp [bind, Except.bind] at h
      | ok v' =>
          rw [hc] at h
          cases hr : convKvs rest with
          | error e => rw [hr] at h; simp [bind, Except.bind] at h
          | ok rest' =>
              rw [hr] at h
              simp [bind, Except.bind, pure, Except.pure] at h
              subst h
              simp [ih hr]

/-- Amended C2: (i) two full apply runs of the same changeset on the same
baseline differ at most in the `#Generated` timestamp (they are
byte-identical exactly when the two runs format the same clock second);
(ii) re-running a `set` is idempotent; (iii) re-running a `merge` of a
mapping (unique keys, as Python dicts guarantee) is idempotent; (iv)
re-running a keyed `append` is deduplicating: the second run returns the
array unchanged. -/
theorem apply_changeset_idempotent_up_to_timestamp :
    (∀ template changeset amdLoaded amdCores t1 t2 r1 r2,
      mainPipeline template changeset amdLoaded amdCores t1 = .ok r1 →
      mainPipeline template changeset amdLoaded amdCores t2 = .ok r2 →
      eraseGenerated r1 = eraseGenerated r2) ∧
    (∀ (obj : Value) (path : List String) (value r : Value),
      setKey obj path value = .ok r → setKey r path value = .ok r) ∧
    (∀ (obj : Value) (path : List String) (ekvs : List (String × Value))
      (r : Value), (ekvs.map Prod.fst).Nodup →
      mergeDict obj path (.dict ekvs) = .ok r →
      mergeDict r path (.dict ekvs) = .ok r) ∧
    (∀ (arr : List Value) (entry : Value) (k s : String) (r : List Value),
      pyGet entry k = .str s →
      appendUniqueList arr entry (some k) = .ok r →
      appendUniqueList r entry (some k) = .ok r) := by
  refine ⟨?_, ?_, ?_, ?_⟩
  · intro template changeset amdLoaded amdCores t1 t2 r1 r2 h1 h2
    unfold mainPipeline at h1 h2
    cases hc : pipelineCore template changeset amdLoaded amdCores with
    | error e => rw [hc] at h1; simp [bind, Except.bind] at h1
    | ok cfg =>
        rw [hc] at h1 h2
        simp only [bind, Except.bind] at h1 h2
        unfold postProcess at h1 h2
        cases hpp : ppCore cfg with
        | error e => rw [hpp] at h1; simp [Except.map] at h1
        | ok ckvs =>
            rw [hpp] at h1 h2
            simp only [Except.map, Except.ok.injEq] at h1 h2
            subst h1; subst h2
            simp [eraseGenerated, dictDel_dictSet]
  · intro obj path value r h
    unfold setKey at h ⊢
    exact withLeaf_idem _ (fun kvs k kvs' hl => by
      simp only [pure, Except.pure, Except.ok.injEq] at hl
      subst hl
      simp [pure, Except.pure, dictSet_dictSet_self]) obj path r h
  · intro obj path ekvs r hnd h
    unfold mergeDict at h ⊢
    refine withLeaf_idem _ (fun kvs k kvs' hl => ?_) obj path r h
    cases htgt : (dictFind kvs k).getD (.dict []) with
    | dict tkvs =>
        rw [htgt] at hl
        cases hcv : convDict (.dict ekvs) with
        | error e => rw [hcv] at hl; simp [bind, Except.bind] at hl
        | ok cv =>
            rw [hcv] at hl
            cases cv with
            | dict cekvs =>
                simp [bind, Except.bind, pure, Except.pure] at hl
                subst hl
                simp only [dictFind_dictSet_self, Option.getD_some, hcv,
                  bind, Except.bind, pure, Except.pure]
                have hndc : (cekvs.map Prod.fst).Nodup := by
                  have := convDict_kvs hcv
                  rw [convKvs_keys this]
                  exact hnd
                rw [dictUpdate_idem _ _ hndc, dictSet_dictSet_self]
            | null => simp [bind, Except.bind] at hl
            | bool b => simp [bind, Except.bind] at hl
            | int n => simp [bind, Except.bind] at hl
            | str s => simp [bind, Except.bind] at hl
            | bytes bs => simp [bind, Except.bind] at hl
            | arr xs => simp [bind, Except.bind] at hl
    | null => rw [htgt] at hl; simp [bind, Except.bind] at hl
    | bool b => rw [htgt] at hl; simp [bind, Except.bind] at hl
    | int n => rw [htgt] at hl; simp [bind, Except.bind] at hl
    | str s => rw [htgt] at hl; simp [bind, Except.bind] at hl
    | bytes bs => rw [htgt] at hl; simp [bind, Except.bind] at hl
    | arr xs => rw [htgt] at hl; simp [bind, Except.bind] at hl
  · intro arr entry k s r hstr h
    have hed : entry.isDict = true := by
      cases entry <;> simp [pyGet] at hstr <;> simp [Value.isDict]
    unfold appendUniqueList at h ⊢
    rw [if_pos (by simpa using hed)] at h ⊢
    cases hcv : convDict entry with
    | error e => rw [hcv] at h; simp [bind, Except.bind] at h
    | ok e' =>
        rw [hcv] at h
        simp only [bind, Except.bind] at h ⊢
        have hs' : pyGet e' k = .str s := convDict_pyGet_str hcv k s hstr
        have hed' : e'.isDict = true := convDict_isDict hed hcv
        cases hd : appendDupCheck arr e' k with
        | error e => rw [hd] at h; simp at h
        | ok b =>
            rw [hd] at h
            cases b with
            | true =>
                simp [pure, Except.pure] at h
                subst h
                rw [hd]
                rfl
            | false =>
                simp [pure, Except.pure] at h
                subst h
                have : appendDupCheck (arr ++ [e']) e' k = .ok true := by
                  apply appendDupCheck_complete hed'
                  exact ⟨e', by simp, hed', by rw [hs']; simp [pyEq]⟩
                rw [this]
                rfl

/-! ## Claim C4 — binary fields in the final plist -/

theorem exMapM_mem {α β : Type} (f : α → Except String β) :
    ∀ (l : List α) (l' : List β), exMapM f l = .ok l' →
      ∀ y ∈ l', ∃ x ∈ l, f x = .ok y := by
  intro l
  induction l with
  | nil =>
      intro l' h y hy
      simp only [exMapM, pure, Except.pure, Except.ok.injEq] at h
      subst h
      simp at hy
  | cons x xs ih =>
      intro l' h y hy
      unfold exMapM at h
      cases hx : f x with
      | error e => rw [hx] at h; simp [bind, Except.bind] at h
      | ok y0 =>
          rw [hx] at h
          cases hr : exMapM f xs with
          | error e => rw [hr] at h; simp [bind, Except.bind] at h
          | ok ys =>
              rw [hr] at h
              simp [bind, Except.bind, pure, Except.pure] at h
              subst h
              rcases List.mem_cons.mp hy with rfl | hy
              · exact ⟨x, by simp, hx⟩
              · rcases ih ys hr y hy with ⟨x0, hx0, hfx0⟩
                exact ⟨x0, by simp [hx0], hfx0⟩

theorem ppPatchField_spec {kvs : List (String × Value)} {f : String}
    {r : List (String × Value)} (h : ppPatchField kvs f = .ok r) :
    (∀ v, dictFind r f = some v → v.isList = false) ∧
    (∀ g, g ≠ f → dictFind r g = dictFind kvs g) := by
  unfold ppPatchField at h
  split at h
  · rename_i xs heq
    cases hb : bytesOfList xs with
    | error e => rw [hb] at h; simp [Except.map] at h
    | ok bs =>
        rw [hb] at h
        simp only [Except.map, Except.ok.injEq] at h
        subst h
        refine ⟨fun v hv => ?_, fun g hg => dictFind_dictSet_ne _ _ _ _
          (fun he => hg he.symm)⟩
        rw [dictFind_dictSet_self] at hv
        injection hv with hv
        subst hv
        rfl
  · rename_i hno
    simp only [pure, Except.pure, Except.ok.injEq] at h
    subst h
    refine ⟨fun v hv => ?_, fun g _ => rfl⟩
    cases v with
    | arr xs => exact absurd hv (hno xs)
    | null => rfl
    | bool b => rfl
    | int n => rfl
    | str t => rfl
    | bytes bs => rfl
    | dict dk => rfl

/-- After the `Kernel.Patch` pass, no binary field of a dict patch holds a
list. -/
theorem ppPatchFix_no_lists {p p' : Value} (h : ppPatchFix p = .ok p') :
    ∀ pkvs, p' = .dict pkvs →
      ∀ f ∈ (["Find", "Replace", "Mask", "ReplaceMask"] : List String),
        ∀ v, dictFind pkvs f = some v → v.isList = false := by
  intro pkvs hp' f hf v hv
  unfold ppPatchFix at h
  split at h
  · rename_i kvs
    cases h1 : ppPatchField kvs "Find" with
    | error e => rw [h1] at h; simp [bind, Except.bind] at h
    | ok k1 =>
        rw [h1] at h
        simp only [bind, Except.bind] at h
        cases h2 : ppPatchField k1 "Replace" with
        | error e => rw [h2] at h; simp [bind, Except.bind] at h
        | ok k2 =>
            rw [h2] at h
            simp only [bind, Except.bind] at h
            cases h3 : ppPatchField k2 "Mask" with
            | error e => rw [h3] at h; simp [bind, Except.bind] at h
            | ok k3 =>
                rw [h3] at h
                simp only [bind, Except.bind] at h
                cases h4 : ppPatchField k3 "ReplaceMask" with
                | error e => rw [h4] at h; simp [bind, Except.bind] at h
                | ok k4 =>
                    rw [h4] at h
                    simp only [bind, Except.bind, pure, Except.pure,
                      Except.ok.injEq] at h
                    rw [← h] at hp'
                    injection hp' with hp'
                    subst hp'
                    have s1 := ppPatchField_spec h1
                    have s2 := ppPatchField_spec h2
                    have s3 := ppPatchField_spec h3
                    have s4 := ppPatchField_spec h4
                    simp only [List.mem_cons, List.mem_singleton] at hf
                    rcases hf with rfl | rfl | rfl | rfl | hf0
                    · rw [s4.2 _ (by decide), s3.2 _ (by decide),
                        s2.2 _ (by decide)] at hv
                      exact s1.1 v hv
                    · rw [s4.2 _ (by decide), s3.2 _ (by decide)] at hv
                      exact s2.1 v hv
                    · rw [s4.2 _ (by decide)] at hv
                      exact s3.1 v hv
                    · exact s4.1 v hv
                    · simp at hf0
  · rename_i vv hno
    simp only at h
    cases hc1 : pyContains p "Find" with
    | error e => rw [hc1] at h; simp [bind, Except.bind, pure, Except.pure] at h
    | ok c1 =>
        rw [hc1] at h
        cases c1 with
        | true => simp [bind, Except.bind, pure, Except.pure] at h
        | false =>
            simp only [bind, Except.bind, reduceIte] at h
            cases hc2 : pyContains p "Replace" with
            | error e => rw [hc2] at h; simp [bind, Except.bind, pure, Except.pure] at h
            | ok c2 =>
                rw [hc2] at h
                cases c2 with
                | true => simp [bind, Except.bind, pure, Except.pure] at h
                | false =>
                    simp only [bind, Except.bind, reduceIte] at h
                    cases hc3 : pyContains p "Mask" with
                    | error e => rw [hc3] at h; simp [bind, Except.bind, pure, Except.pure] at h
                    | ok c3 =>
                        rw [hc3] at h
                        cases c3 with
                        | true => simp [bind, Except.bind, pure, Except.pure] at h
                        | false =>
                            simp only [bind, Except.bind, reduceIte] at h
                            cases hc4 : pyContains p "ReplaceMask" with
                            | error e =>
                                rw [hc4] at h
                                simp [bind, Except.bind, pure, Except.pure] at h
                            | ok c4 =>
                                rw [hc4] at h
                                cases c4 with
                                | true => simp [bind, Except.bind, pure, Except.pure] at h
                                | false =>
                                    simp [bind, Except.bind, pure, Except.pure] at h
                                    subst h
                                    exact (hno pkvs hp').elim

/-- No dict entry of the `Kernel.Patch` array holds a list in a binary
patch field. -/
def kernelPatchNoLists (ckvs : List (String × Value)) : Prop :=
  ∀ xs, getAt (.dict ckvs) ["Kernel", "Patch"] = some (.arr xs) →
    ∀ p ∈ xs, ∀ pkvs, p = Value.dict pkvs →
      ∀ f ∈ (["Find", "Replace", "Mask", "ReplaceMask"] : List String),
        ∀ v, dictFind pkvs f = some v → v.isList = false

theorem sectionAdd_dict_none {kvs : List (String × Value)} {k : String}
    (h : sectionAdd? (.dict kvs) k = .ok none) : dictFind kvs k = none := by
  cases hf : dictFind kvs k with
  | none => rfl
  | some u =>
      unfold sectionAdd? at h
      simp [pyContains, bind, Except.bind, hf, pySubscript, pure,
        Except.pure] at h

theorem sectionAdd_dict_some {kvs : List (String × Value)} {k : String}
    {w : Value} (h : sectionAdd? (.dict kvs) k = .ok (some w)) :
    dictFind kvs k = some w := by
  cases hf : dictFind kvs k with
  | none =>
      unfold sectionAdd? at h
      simp [pyContains, bind, Except.bind, hf, pure, Except.pure] at h
  | some u =>
      unfold sectionAdd? at h
      simp [pyContains, bind, Except.bind, hf, pySubscript, pure,
        Except.pure] at h
      exact congrArg some h

theorem kernelPatchNoLists_of_find_eq {a b : List (String × Value)}
    (hfind : dictFind b "Kernel" = dictFind a "Kernel")
    (h : kernelPatchNoLists a) : kernelPatchNoLists b := by
  intro xs hxs
  apply h xs
  simp only [getAt] at hxs ⊢
  rw [hfind] at hxs
  exact hxs

theorem ppKernelPatchStep_noLists {ckvs r : List (String × Value)}
    (h : ppKernelPatchStep ckvs = .ok r) : kernelPatchNoLists r := by
  unfold ppKernelPatchStep at h
  simp only [bind, Except.bind] at h
  split at h
  · rename_i hK
    simp only [pure, Except.pure, Except.ok.injEq] at h
    subst h
    intro xs hxs
    simp [getAt, hK] at hxs
  · rename_i kv hK
    split at h
    · exact absurd h (by simp)
    · rename_i a hS
      cases a with
      | none =>
          simp only [pure, Except.pure, Except.ok.injEq] at h
          subst h
          intro xs hxs
          simp only [getAt, hK] at hxs
          cases kv with
          | dict kkvs => simp [getAt, sectionAdd_dict_none hS] at hxs
          | null => simp [getAt] at hxs
          | bool b => simp [getAt] at hxs
          | int n => simp [getAt] at hxs
          | str t => simp [getAt] at hxs
          | bytes bs => simp [getAt] at hxs
          | arr ys => simp [getAt] at hxs
      | some av =>
          cases av with
          | arr xs0 =>
              simp only [bind, Except.bind] at h
              cases hm : exMapM ppPatchFix xs0 with
              | error e => rw [hm] at h; simp at h
              | ok xs' =>
                  rw [hm] at h
                  cases kv with
                  | dict kkvs =>
                      simp only [pure, Except.pure, Except.ok.injEq] at h
                      subst h
                      intro ys hys
                      simp only [getAt, dictFind_dictSet_self,
                        Option.some.injEq, Value.arr.injEq] at hys
                      subst hys
                      intro p hp pkvs hpd f hf v hv
                      obtain ⟨x, hx, hfx⟩ := exMapM_mem ppPatchFix xs0 _ hm p hp
                      exact ppPatchFix_no_lists hfx pkvs hpd f hf v hv
                  | null => simp at h
                  | bool b => simp at h
                  | int n => simp at h
                  | str t => simp at h
                  | bytes bs => simp at h
                  | arr zs => simp at h
          | null =>
              simp only [bind, Except.bind] at h
              cases hi : pyIterList Value.null with
              | error e => rw [hi] at h; simp at h
              | ok ys =>
                  rw [hi] at h
                  simp only [bind, Except.bind] at h
                  cases hm : exMapM ppPatchFix ys with
                  | error e => rw [hm] at h; simp at h
                  | ok zs =>
                      rw [hm] at h
                      simp only [pure, Except.pure, Except.ok.injEq] at h
                      subst h
                      intro xs hxs
                      simp only [getAt, hK] at hxs
                      cases kv with
                      | dict kkvs => simp [getAt, sectionAdd_dict_some hS] at hxs
                      | null => simp [getAt] at hxs
                      | bool b => simp [getAt] at hxs
                      | int n => simp [getAt] at hxs
                      | str t => simp [getAt] at hxs
                      | bytes bs => simp [getAt] at hxs
                      | arr zs2 => simp [getAt] at hxs
          | bool b0 =>
              simp only [bind, Except.bind] at h
              cases hi : pyIterList (Value.bool b0) with
              | error e => rw [hi] at h; simp at h
              | ok ys =>
                  rw [hi] at h
                  simp only [bind, Except.bind] at h
                  cases hm : exMapM ppPatchFix ys with
                  | error e => rw [hm] at h; simp at h
                  | ok zs =>
                      rw [hm] at h
                      simp only [pure, Except.pure, Except.ok.injEq] at h
                      subst h
                      intro xs hxs
                      simp only [getAt, hK] at hxs
                      cases kv with
                      | dict kkvs => simp [getAt, sectionAdd_dict_some hS] at hxs
                      | null => simp [getAt] at hxs
                      | bool b => simp [getAt] at hxs
                      | int n => simp [getAt] at hxs
                      | str t => simp [getAt] at hxs
                      | bytes bs => simp [getAt] at hxs
                      | arr zs2 => simp [getAt] at hxs
          | int n0 =>
              simp only [bind, Except.bind] at h
              cases hi : pyIterList (Value.int n0) with
              | error e => rw [hi] at h; simp at h
              | ok ys =>
                  rw [hi] at h
                  simp only [bind, Except.bind] at h
                  cases hm : exMapM ppPatchFix ys with
                  | error e => rw [hm] at h; simp at h
                  | ok zs =>
                      rw [hm] at h
                      simp only [pure, Except.pure, Except.ok.injEq] at h
                      subst h
                      intro xs hxs
                      simp only [getAt, hK] at hxs
                      cases kv with
                      | dict kkvs => simp [getAt, sectionAdd_dict_some hS] at hxs
                      | null => simp [getAt] at hxs
                      | bool b => simp [getAt] at hxs
                      | int n => simp [getAt] at hxs
                      | str t => simp [getAt] at hxs
                      | bytes bs => simp [getAt] at hxs
                      | arr zs2 => simp [getAt] at hxs
          | str s0 =>
              simp only [bind, Except.bind] at h
              cases hi : pyIterList (Value.str s0) with
              | error e => rw [hi] at h; simp at h
              | ok ys =>
                  rw [hi] at h
                  simp only [bind, Except.bind] at h
                  cases hm : exMapM ppPatchFix ys with
                  | error e => rw [hm] at h; simp at h
                  | ok zs =>
                      rw [hm] at h
                      simp only [pure, Except.pure, Except.ok.injEq] at h
                      subst h
                      intro xs hxs
                      simp only [getAt, hK] at hxs
                      cases kv with
                      | dict kkvs => simp [getAt, sectionAdd_dict_some hS] at hxs
                      | null => simp [getAt] at hxs
                      | bool b => simp [getAt] at hxs
                      | int n => simp [getAt] at hxs
                      | str t => simp [getAt] at hxs
                      | bytes bs => simp [getAt] at hxs
                      | arr zs2 => simp [getAt] at hxs
          | bytes bs0 =>
              simp only [bind, Except.bind] at h
              cases hi : pyIterList (Value.bytes bs0) with
              | error e => rw [hi] at h; simp at h
              | ok ys =>
                  rw [hi] at h
                  simp only [bind, Except.bind] at h
                  cases hm : exMapM ppPatchFix ys with
                  | error e => rw [hm] at h; simp at h
                  | ok zs =>
                      rw [hm] at h
                      simp only [pure, Except.pure, Except.ok.injEq] at h
                      subst h
                      intro xs hxs
                      simp only [getAt, hK] at hxs
                      cases kv with
                      | dict kkvs => simp [getAt, sectionAdd_dict_some hS] at hxs
                      | null => simp [getAt] at hxs
                      | bool b => simp [getAt] at hxs
                      | int n => simp [getAt] at hxs
                      | str t => simp [getAt] at hxs
                      | bytes bs => simp [getAt] at hxs
                      | arr zs2 => simp [getAt] at hxs
          | dict pk0 =>
              simp only [bind, Except.bind] at h
              cases hi : pyIterList (Value.dict pk0) with
              | error e => rw [hi] at h; simp at h
              | ok ys =>
                  rw [hi] at h
                  simp only [bind, Except.bind] at h
                  cases hm : exMapM ppPatchFix ys with
                  | error e => rw [hm] at h; simp at h
                  | ok zs =>
                      rw [hm] at h
                      simp only [pure, Except.pure, Except.ok.injEq] at h
                      subst h
                      intro xs hxs
                      simp only [getAt, hK] at hxs
                      cases kv with
                      | dict kkvs => simp [getAt, sectionAdd_dict_some hS] at hxs
                      | null => simp [getAt] at hxs
                      | bool b => simp [getAt] at hxs
                      | int n => simp [getAt] at hxs
                      | str t => simp [getAt] at hxs
                      | bytes bs => simp [getAt] at hxs
                      | arr zs2 => simp [getAt] at hxs

theorem ppDevicePropsStep_find_ne {ckvs r : List (String × Value)} {k : String}
    (h : ppDevicePropsStep ckvs = .ok r) (hk : k ≠ "DeviceProperties") :
    dictFind r k = dictFind ckvs k := by
  unfold ppDevicePropsStep at h
  simp only [bind, Except.bind] at h
  split at h
  · simp only [pure, Except.pure, Except.ok.injEq] at h
    subst h; rfl
  · split at h
    · exact absurd h (by simp)
    · split at h
      · simp only [pure, Except.pure, Except.ok.injEq] at h
        subst h; rfl
      · split at h
        · exact absurd h (by simp)
        · split at h
          · exact absurd h (by simp)
          · split at h
            · simp only [pure, Except.pure, Except.ok.injEq] at h
              subst h
              exact dictFind_dictSet_ne _ _ _ _ (fun he => hk he.symm)
            · exact absurd h (by simp)

theorem ppNvramStep_find_ne {ckvs r : List (String × Value)} {k : String}
    (h : ppNvramStep ckvs = .ok r) (hk : k ≠ "NVRAM") :
    dictFind r k = dictFind ckvs k := by
  unfold ppNvramStep at h
  simp only [bind, Except.bind] at h
  split at h
  · simp only [pure, Except.pure, Except.ok.injEq] at h
    subst h; rfl
  · split at h
    · exact absurd h (by simp)
    · split at h
      · simp only [pure, Except.pure, Except.ok.injEq] at h
        subst h; rfl
      · split at h
        · exact absurd h (by simp)
        · split at h
          · exact absurd h (by simp)
          · split at h
            · simp only [pure, Except.pure, Except.ok.injEq] at h
              subst h
              exact dictFind_dictSet_ne _ _ _ _ (fun he => hk he.symm)
            · exact absurd h (by simp)

theorem ppSectionWarnStep_find_ne {ckvs r : List (String × Value)}
    {s k : String} (h : ppSectionWarnStep ckvs s = .ok r) (hk : k ≠ s) :
    dictFind r k = dictFind ckvs k := by
  unfold ppSectionWarnStep at h
  split at h
  · simp only [pure, Except.pure, Except.ok.injEq] at h
    subst h; rfl
  · simp only [pure, Except.pure, Except.ok.injEq] at h
    subst h
    exact dictFind_dictSet_ne _ _ _ _ (fun he => hk he.symm)
  · exact absurd h (by simp)

theorem ppFilterAddStep_find_ne {ckvs r : List (String × Value)}
    {s k : String} {filt : Value → Except String (List Value)}
    (h : ppFilterAddStep ckvs s filt = .ok r) (hk : k ≠ s) :
    dictFind r k = dictFind ckvs k := by
  unfold ppFilterAddStep at h
  simp only [bind, Except.bind] at h
  split at h
  · simp only [pure, Except.pure, Except.ok.injEq] at h
    subst h; rfl
  · split at h
    · exact absurd h (by simp)
    · split at h
      · simp only [pure, Except.pure, Except.ok.injEq] at h
        subst h; rfl
      · split at h
        · exact absurd h (by simp)
        · split at h
          · simp only [pure, Except.pure, Except.ok.injEq] at h
            subst h
            exact dictFind_dictSet_ne _ _ _ _ (fun he => hk he.symm)
          · exact absurd h (by simp)

theorem ppFilterAddStep_kernel_noLists {ckvs r : List (String × Value)}
    {filt : Value → Except String (List Value)}
    (h : ppFilterAddStep ckvs "Kernel" filt = .ok r)
    (hp : kernelPatchNoLists ckvs) : kernelPatchNoLists r := by
  unfold ppFilterAddStep at h
  simp only [bind, Except.bind] at h
  split at h
  · simp only [pure, Except.pure, Except.ok.injEq] at h
    subst h; exact hp
  · rename_i sv hK
    split at h
    · exact absurd h (by simp)
    · rename_i a hS
      split at h
      · simp only [pure, Except.pure, Except.ok.injEq] at h
        subst h; exact hp
      · split at h
        · exact absurd h (by simp)
        · rename_i filtered hfilt
          split at h
          · rename_i skvs
            simp only [pure, Except.pure, Except.ok.injEq] at h
            subst h
            intro xs hxs
            apply hp xs
            simp only [getAt, dictFind_dictSet_self] at hxs
            rw [dictFind_dictSet_ne _ _ _ _ (by decide)] at hxs
            simp only [getAt, hK]
            exact hxs
          · exact absurd h (by simp)

theorem ppCore_kernel_noLists {cfg : Value} {r : List (String × Value)}
    (h : ppCore cfg = .ok r) : kernelPatchNoLists r := by
  unfold ppCore at h
  cases cfg with
  | dict ckvs =>
      simp only [bind, Except.bind] at h
      split at h
      · exact absurd h (by simp)
      · rename_i a1 h1
        split at h
        · exact absurd h (by simp)
        · rename_i a2 h2
          split at h
          · exact absurd h (by simp)
          · rename_i a3 h3
            split at h
            · exact absurd h (by simp)
            · rename_i a5 h5
              split at h
              · exact absurd h (by simp)
              · rename_i a6 h6
                split at h
                · exact absurd h (by simp)
                · rename_i a7 h7
                  split at h
                  · exact absurd h (by simp)
                  · rename_i a8 h8
                    simp only [pure, Except.pure, Except.ok.injEq] at h
                    subst h
                    have p1 := ppKernelPatchStep_noLists h1
                    have p2 := kernelPatchNoLists_of_find_eq
                      (ppDevicePropsStep_find_ne h2 (by decide)) p1
                    have p3 := kernelPatchNoLists_of_find_eq
                      (ppNvramStep_find_ne h3 (by decide)) p2
                    have p4 := kernelPatchNoLists_of_find_eq
                      (dictFind_filter_key
                        (fun t => ! strStartsWith t "#WARNING")
                        a3 "Kernel" (by decide)) p3
                    have p5 := kernelPatchNoLists_of_find_eq
                      (ppSectionWarnStep_find_ne h5 (by decide)) p4
                    have p6 := kernelPatchNoLists_of_find_eq
                      (ppSectionWarnStep_find_ne h6 (by decide)) p5
                    have p7 := kernelPatchNoLists_of_find_eq
                      (ppFilterAddStep_find_ne h7 (by decide)) p6
                    exact ppFilterAddStep_kernel_noLists h8 p7
  | null => exact absurd h (by simp)
  | bool b => exact absurd h (by simp)
  | int n => exact absurd h (by simp)
  | str t => exact absurd h (by simp)
  | bytes bs => exact absurd h (by simp)
  | arr xs => exact absurd h (by simp)

theorem mainPipeline_kernel_noLists {template : Value}
    {changeset : List (String × Value)} {amdLoaded : Option (List Value)}
    {amdCores : Option Int} {now : String} {cfg : Value}
    (h : mainPipeline template changeset amdLoaded amdCores now = .ok cfg) :
    ∀ ckvs, cfg = .dict ckvs → kernelPatchNoLists ckvs := by
  intro ckvs hcfg
  unfold mainPipeline at h
  simp only [bind, Except.bind] at h
  split at h
  · exact absurd h (by simp)
  · rename_i t ht
    unfold postProcess at h
    cases hc : ppCore t with
    | error e => rw [hc] at h; simp [Except.map] at h
    | ok rr =>
        rw [hc] at h
        simp only [Except.map, Except.ok.injEq] at h
        rw [← h] at hcfg
        injection hcfg with hcfg
        subst hcfg
        exact kernelPatchNoLists_of_find_eq
          (dictFind_dictSet_ne _ _ _ _ (by decide))
          (ppCore_kernel_noLists hc)

/-- C4 counterexample: `Cpuid1Data` is one of the binary data keys, yet a
changeset that sets it to the hex string `"0F000000"` produces a final
plist in which `Kernel.Emulate.Cpuid1Data` still holds that very string —
neither the translator nor post-processing coerces hex strings in binary
fields to bytes. -/
theorem binary_field_hex_string_survives :
    "Cpuid1Data" ∈ binKeys ∧
    mainPipeline (.dict [("Kernel", .dict [("Emulate", .dict [])])])
        [("KernelEmulate", .dict [("Cpuid1Data", .str "0F000000")])]
        none none "T"
      = .ok (.dict [("Kernel", .dict [("Emulate",
          .dict [("Cpuid1Data", .str "0F000000")])]),
          ("#Generated", .str "T")]) :=
  ⟨by decide, by rfl⟩

/-- C4 (amended): in every successful run of the apply pipeline, the binary
patch fields `Find`, `Replace`, `Mask` and `ReplaceMask` of every dict
entry of the final `Kernel.Patch` array hold a non-list value — integer
lists in these fields are coerced to bytes before serialization.  (The
original claim also asserted hex strings are coerced in binary fields;
they are not — see the counterexample.) -/
theorem kernel_patch_binary_fields_never_lists
    (template : Value) (changeset : List (String × Value))
    (amdLoaded : Option (List Value)) (amdCores : Option Int) (now : String)
    (cfg : Value)
    (h : mainPipeline template changeset amdLoaded amdCores now = .ok cfg)
    (ckvs : List (String × Value)) (hcfg : cfg = .dict ckvs)
    (xs : List Value)
    (hxs : getAt (.dict ckvs) ["Kernel", "Patch"] = some (.arr xs))
    (p : Value) (hp : p ∈ xs) (pkvs : List (String × Value))
    (hpd : p = .dict pkvs) (f : String)
    (hf : f ∈ (["Find", "Replace", "Mask", "ReplaceMask"] : List String))
    (v : Value) (hv : dictFind pkvs f = some v) : v.isList = false :=
  mainPipeline_kernel_noLists h ckvs hcfg xs hxs p hp pkvs hpd f hf v hv

/-- Witness for amended C4: a `Find` field that reaches the patcher as a
list of two ints ends as a two-byte value in the final plist, and bytes
are not a list. -/
theorem kernel_patch_binary_fields_never_lists_witness :
    (Value.bytes [1, 2]).isList = false :=
  kernel_patch_binary_fields_never_lists
    (.dict [("Kernel", .dict [("Patch", .arr
      [.dict [("Find", .arr [.int 1, .int 2]), ("Comment", .str "c")]])])])
    [] none none "T"
    (.dict [("Kernel", .dict [("Patch", .arr
      [.dict [("Find", .bytes [1, 2]), ("Comment", .str "c")]])]),
      ("#Generated", .str "T")])
    (by rfl)
    [("Kernel", Value.dict [("Patch", .arr
      [.dict [("Find", .bytes [1, 2]), ("Comment", .str "c")]])]),
      ("#Generated", Value.str "T")]
    rfl
    [.dict [("Find", .bytes [1, 2]), ("Comment", .str "c")]]
    (by rfl)
    (.dict [("Find", .bytes [1, 2]), ("Comment", .str "c")])
    (by simp)
    [("Find", .bytes [1, 2]), ("Comment", .str "c")]
    rfl
    "Find" (by decide)
    (.bytes [1, 2]) (by rfl)

/-! ## Claim C6 — one `Kernel.Add` entry per declared kext bundle -/

/-- The canonical `Kernel.Add` entry the `kexts` loop builds for a bundle
declared without an `exec` field. -/
def kextAddEntry (b : String) : Value :=
  .dict [("Arch", .str "Any"), ("BundlePath", .str b), ("Comment", .str b),
    ("Enabled", .bool true), ("ExecutablePath", .str ""),
    ("MaxKernel", .str ""), ("MinKernel", .str ""),
    ("PlistPath", .str "Contents/Info.plist")]

theorem pyGet_kextAddEntry (b : String) :
    pyGet (kextAddEntry b) "BundlePath" = .str b := rfl


/-- The two-kext changeset of claim C6. -/
def kextChangeset (A B : String) : List (String × Value) :=
  [("Kexts", .arr [.dict [("bundle", .str A)], .dict [("bundle", .str B)]])]

/-- The tree the patcher leaves behind for `kextChangeset`. -/
def kextTree (A B : String) : Value :=
  .dict [("Kernel", .dict [("Add", .arr [kextAddEntry A, kextAddEntry B])])]

theorem c6_q1 (A B : String) : kextsOps (kextChangeset A B) =
    .ok [Op.set ["Kernel", "Add"] (.arr [kextAddEntry A, kextAddEntry B])] := rfl

theorem c6_q2 (A B : String) :
    dictFind (kextChangeset A B) "BooterQuirks" = none := rfl

theorem c6_q3 (A B : String) :
    kernelQuirksOps (kextChangeset A B) = .ok [] := rfl

theorem c6_q4 (A B : String) :
    get2 (kextChangeset A B) "KernelEmulate" "kernel_emulate" = .null := rfl

theorem c6_q5 (A B : String) :
    get2 (kextChangeset A B) "KernelPatches" "kernel_patches" = .null := rfl

theorem c6_q6 (A B : String) : bootArgsOps (kextChangeset A B) = .ok [] := rfl

theorem c6_q7 (A B : String) : csrOps (kextChangeset A B) = .ok [] := rfl

theorem c6_q8 (A B : String) :
    platformInfoOps (kextChangeset A B) = .ok [] := rfl

theorem c6_q9 (A B : String) : acpiAddOps (kextChangeset A B) = .ok [] := rfl

theorem c6_q10 (A B : String) :
    get2 (kextChangeset A B) "AcpiQuirks" "acpi_quirks" = .null := rfl

theorem c6_q11 (A B : String) :
    uefiDriversOps (kextChangeset A B) = .ok [] := rfl

theorem c6_q12 (A B : String) : toolsOps (kextChangeset A B) = .ok [] := rfl

theorem c6_q13 (A B : String) :
    setIfTruthy (kextChangeset A B) "DeviceProperties" "device_properties"
      ["DeviceProperties", "Add"] = [] := rfl

theorem c6_q14 (A B : String) :
    setIfTruthy (kextChangeset A B) "SecureBootModel" "secureboot_model"
      ["Misc", "Security", "SecureBootModel"] = [] := rfl

theorem c6_q15 (A B : String) :
    setIfTruthy (kextChangeset A B) "Vault" "vault"
      ["Misc", "Security", "Vault"] = [] := rfl

theorem c6_q16 (A B : String) :
    setIfTruthy (kextChangeset A B) "ScanPolicy" "scan_policy"
      ["Misc", "Security", "ScanPolicy"] = [] := rfl

theorem c6_q17 (A B : String) :
    settingsOps (kextChangeset A B) "MiscDebug" "misc_debug"
      ["Misc", "Debug"] = .ok [] := rfl

theorem c6_q18 (A B : String) :
    settingsOps (kextChangeset A B) "MiscSerial" "misc_serial"
      ["Misc", "Serial"] = .ok [] := rfl

theorem c6_q19 (A B : String) : nvramOps (kextChangeset A B) = .ok [] := rfl

theorem c6_q20 (A B : String) :
    mappedSettingsOps (kextChangeset A B) "MiscBoot" "misc_boot"
      bootKeyMapping ["Misc", "Boot"] = .ok [] := rfl

theorem c6_q21 (A B : String) :
    setIfTruthy (kextChangeset A B) "MiscBlessOverride" "misc_bless_override"
      ["Misc", "BlessOverride"] = [] := rfl

theorem c6_q22 (A B : String) :
    mappedSettingsOps (kextChangeset A B) "MiscSecurity" "misc_security"
      securityKeyMapping ["Misc", "Security"] = .ok [] := rfl

theorem c6_q23 (A B : String) :
    setIfNotNone (kextChangeset A B) "AllowSetDefault" "allow_set_default"
      ["Misc", "Security", "AllowSetDefault"] = [] := rfl

theorem c6_q24 (A B : String) :
    setIfNotNone (kextChangeset A B) "ExposeSensitiveData"
      "expose_sensitive_data" ["Misc", "Security", "ExposeSensitiveData"]
      = [] := rfl

theorem c6_q25 (A B : String) :
    setIfNotNone (kextChangeset A B) "AuthRestart" "auth_restart"
      ["Misc", "Security", "AuthRestart"] = [] := rfl

theorem c6_q26 (A B : String) :
    setIfNotNone (kextChangeset A B) "BlacklistAppleUpdate"
      "blacklist_apple_update" ["Misc", "Security", "BlacklistAppleUpdate"]
      = [] := rfl

theorem c6_q27 (A B : String) :
    setIfNotNone (kextChangeset A B) "DmgLoading" "dmg_loading"
      ["Misc", "Security", "DmgLoading"] = [] := rfl

theorem c6_q28 (A B : String) :
    setIfNotNone (kextChangeset A B) "EnablePassword" "enable_password"
      ["Misc", "Security", "EnablePassword"] = [] := rfl

theorem c6_q29 (A B : String) :
    setIfNotNone (kextChangeset A B) "HaltLevel" "halt_level"
      ["Misc", "Security", "HaltLevel"] = [] := rfl

theorem c6_q30 (A B : String) :
    dictFind (kextChangeset A B) "MiscTools" = none := rfl

theorem c6_q31 (A B : String) :
    dictFind (kextChangeset A B) "MiscEntries" = none := rfl

theorem c6_q32 (A B : String) :
    settingsOps (kextChangeset A B) "UefiOutput" "uefi_output"
      ["UEFI", "Output"] = .ok [] := rfl

theorem c6_q33 (A B : String) :
    settingsOps (kextChangeset A B) "UefiApfs" "uefi_apfs"
      ["UEFI", "APFS"] = .ok [] := rfl

theorem c6_q34 (A B : String) :
    settingsOps (kextChangeset A B) "UefiQuirks" "uefi_quirks"
      ["UEFI", "Quirks"] = .ok [] := rfl

theorem c6_q35 (A B : String) :
    setIfNotNone (kextChangeset A B) "ConnectDrivers" "connect_drivers"
      ["UEFI", "ConnectDrivers"] = [] := rfl

theorem c6_q36 (A B : String) :
    settingsOps (kextChangeset A B) "ProtocolOverrides" "protocol_overrides"
      ["UEFI", "ProtocolOverrides"] = .ok [] := rfl

theorem c6_q37 (A B : String) :
    setIfTruthy (kextChangeset A B) "ReservedMemory" "reserved_memory"
      ["UEFI", "ReservedMemory"] = [] := rfl

theorem bindOk {α β : Type} {e : Except String α} {a : α} (h : e = .ok a)
    (f : α → Except String β) : e >>= f = f a := by subst h; rfl

theorem pureOk {α : Type} (a : α) : (pure a : Except String α) = .ok a := rfl

theorem okBind {α β : Type} (a : α) (f : α → Except String β) :
    (Except.ok a : Except String α) >>= f = f a := rfl

theorem pyTruthy_null : Value.pyTruthy Value.null = false := rfl

theorem c6_ops (A B : String) : changesetToOperations (kextChangeset A B) =
    .ok [Op.set ["Kernel", "Add"] (.arr [kextAddEntry A, kextAddEntry B])] := by
  unfold changesetToOperations
  simp only [bindOk (c6_q1 A B), bindOk (c6_q3 A B), bindOk (c6_q6 A B),
    bindOk (c6_q7 A B), bindOk (c6_q8 A B), bindOk (c6_q9 A B),
    bindOk (c6_q11 A B), bindOk (c6_q12 A B), bindOk (c6_q17 A B),
    bindOk (c6_q18 A B), bindOk (c6_q19 A B), bindOk (c6_q20 A B),
    bindOk (c6_q22 A B), bindOk (c6_q32 A B), bindOk (c6_q33 A B),
    bindOk (c6_q34 A B), bindOk (c6_q36 A B),
    c6_q2 A B, c6_q4 A B, c6_q5 A B, c6_q10 A B, c6_q13 A B, c6_q14 A B,
    c6_q15 A B, c6_q16 A B, c6_q21 A B, c6_q23 A B, c6_q24 A B, c6_q25 A B,
    c6_q26 A B, c6_q27 A B, c6_q28 A B, c6_q29 A B, c6_q30 A B, c6_q31 A B,
    c6_q35 A B, c6_q37 A B,
    pyTruthy_null, Bool.false_eq_true, reduceIte, pureOk, okBind,
    List.nil_append, List.cons_append, List.append_nil]

/-- The root dict entries the patcher leaves behind for `kextChangeset`. -/
def kextTreeKvs (A B : String) : List (String × Value) :=
  [("Kernel", .dict [("Add", .arr [kextAddEntry A, kextAddEntry B])])]

theorem c6_v1 (A B : String) :
    validateStructureApply (kextChangeset A B) = .ok () := rfl

theorem c6_v2 (A B : String) :
    applyPlatformInfoToNvram (kextChangeset A B) = .ok (kextChangeset A B) := rfl

theorem c6_v3 (A B : String) :
    amdStep (kextChangeset A B) none none = .ok (kextChangeset A B) := rfl

theorem c6_v5 (A B : String) :
    [Op.set ["Kernel", "Add"] (.arr [kextAddEntry A, kextAddEntry B])].map
      jsonRoundOp
    = [Op.set ["Kernel", "Add"] (.arr [kextAddEntry A, kextAddEntry B])] := rfl

theorem c6_v6 (A B : String) :
    patcherRun [Op.set ["Kernel", "Add"]
        (.arr [kextAddEntry A, kextAddEntry B])] (.dict [])
    = .ok (.dict (kextTreeKvs A B)) := rfl

theorem c6_r1 (A B : String) :
    ppKernelPatchStep (kextTreeKvs A B) = .ok (kextTreeKvs A B) := rfl

theorem c6_r2 (A B : String) :
    ppDevicePropsStep (kextTreeKvs A B) = .ok (kextTreeKvs A B) := rfl

theorem c6_r3 (A B : String) :
    ppNvramStep (kextTreeKvs A B) = .ok (kextTreeKvs A B) := rfl

theorem c6_r4 (A B : String) :
    (kextTreeKvs A B).filter (fun kv => ! strStartsWith kv.1 "#WARNING")
    = kextTreeKvs A B := by
  simp [kextTreeKvs, List.filter,
    (by decide : (strStartsWith "Kernel" "#WARNING") = false)]

theorem c6_r5 (A B : String) :
    ppSectionWarnStep (kextTreeKvs A B) "ACPI" = .ok (kextTreeKvs A B) := rfl

theorem c6_r6 (A B : String) :
    ppSectionWarnStep (kextTreeKvs A B) "DeviceProperties"
    = .ok (kextTreeKvs A B) := rfl

theorem c6_r7 (A B : String) :
    ppFilterAddStep (kextTreeKvs A B) "ACPI" ppFilterAcpi
    = .ok (kextTreeKvs A B) := rfl

theorem c6_r8 (A B : String) :
    ppFilterAddStep (kextTreeKvs A B) "Kernel" ppFilterKernelAdd
    = .ok (kextTreeKvs A B) := rfl

theorem c6_ppCore (A B : String) :
    ppCore (.dict (kextTreeKvs A B)) = .ok (kextTreeKvs A B) := by
  unfold ppCore
  simp only [bindOk (c6_r1 A B), bindOk (c6_r2 A B), bindOk (c6_r3 A B),
    c6_r4 A B, bindOk (c6_r5 A B), bindOk (c6_r6 A B), bindOk (c6_r7 A B),
    bindOk (c6_r8 A B), pureOk, okBind]

theorem c6_post (A B now : String) :
    postProcess (.dict (kextTreeKvs A B)) now
    = .ok (.dict [("Kernel", .dict [("Add",
        .arr [kextAddEntry A, kextAddEntry B])]),
        ("#Generated", .str now)]) := by
  unfold postProcess
  rw [c6_ppCore A B]
  rfl

theorem c6_pipeline (A B now : String) :
    mainPipeline (.dict []) (kextChangeset A B) none none now
    = .ok (.dict [("Kernel", .dict [("Add",
        .arr [kextAddEntry A, kextAddEntry B])]),
        ("#Generated", .str now)]) := by
  unfold mainPipeline pipelineCore
  simp only [bindOk (c6_v1 A B), bindOk (c6_v2 A B), bindOk (c6_v3 A B),
    bindOk (c6_ops A B), c6_v5 A B, c6_v6 A B, okBind, pureOk,
    c6_post A B now]

/-- C6: a changeset declaring the two kext bundles `A` and `B` always
yields a `Kernel.Add` array with exactly one entry per declared bundle
path — and, when `A ≠ B`, no two entries share a `BundlePath` — whatever
timestamp the invocation runs at.  The `kexts` section is translated to a
single `set` of the whole `Kernel.Add` array, so re-running the patcher
(each invocation re-applies its operation list to the fresh template copy,
twice) overwrites it with the same array instead of accumulating
duplicates. -/
theorem kexts_unique_bundle_paths (A B now : String) (hAB : A ≠ B) :
    mainPipeline (.dict [])
        [("Kexts", .arr [.dict [("bundle", .str A)],
          .dict [("bundle", .str B)]])] none none now
      = .ok (.dict [("Kernel", .dict [("Add",
          .arr [kextAddEntry A, kextAddEntry B])]),
          ("#Generated", .str now)]) ∧
    ([kextAddEntry A, kextAddEntry B].filter
        (fun e => decide (pyGet e "BundlePath" = .str A))).length = 1 ∧
    ([kextAddEntry A, kextAddEntry B].filter
        (fun e => decide (pyGet e "BundlePath" = .str B))).length = 1 ∧
    List.Pairwise (fun e1 e2 => pyGet e1 "BundlePath" ≠ pyGet e2 "BundlePath")
      [kextAddEntry A, kextAddEntry B] := by
  refine ⟨c6_pipeline A B now, ?_, ?_, ?_⟩
  · simp [List.filter, pyGet_kextAddEntry, hAB, Ne.symm hAB]
  · simp [List.filter, pyGet_kextAddEntry, hAB, Ne.symm hAB]
  · simp [List.pairwise_cons, pyGet_kextAddEntry, hAB]

/-- Witness for C6 at the concrete bundles `"A"` and `"B"`: the resulting
entries carry pairwise distinct `BundlePath`s. -/
theorem kexts_unique_bundle_paths_witness :
    List.Pairwise (fun e1 e2 => pyGet e1 "BundlePath" ≠ pyGet e2 "BundlePath")
      [kextAddEntry "A", kextAddEntry "B"] :=
  (kexts_unique_bundle_paths "A" "B" "T" (by decide)).2.2.2

/-- Witness for amended C2 at a concrete template, changeset and pair of
timestamps. -/
theorem apply_changeset_idempotent_up_to_timestamp_witness :
    mainPipeline (.dict []) [("BooterQuirks", .dict [("AvoidRuntimeDefrag",
      .bool true)])] none none "t1" =
      .ok (.dict [("Booter", .dict [("Quirks", .dict [("AvoidRuntimeDefrag",
        .bool true)])]), ("#Generated", .str "t1")]) ∧
    eraseGenerated (.dict [("Booter", .dict [("Quirks", .dict
      [("AvoidRuntimeDefrag", .bool true)])]), ("#Generated", .str "t1")]) =
    eraseGenerated (.dict [("Booter", .dict [("Quirks", .dict
      [("AvoidRuntimeDefrag", .bool true)])]), ("#Generated", .str "t2")]) :=
  ⟨rfl,
   apply_changeset_idempotent_up_to_timestamp.1 (.dict [])
     [("BooterQuirks", .dict [("AvoidRuntimeDefrag", .bool true)])]
     none none "t1" "t2" _ _ rfl rfl⟩

/-! ## Claim C10 — exclusive boot-args definitions -/

/-- A changeset carrying boot arguments only as the top-level key. -/
def topBootChangeset (a : String) : List (String × Value) :=
  [("BootArgs", .str a)]

/-- A changeset carrying boot arguments only inside the NVRAM `Add`
mapping of the boot GUID. -/
def nvramBootChangeset (a : String) : List (String × Value) :=
  [("NVRAM", .dict [("Add", .dict [(bootGuid,
    .dict [("boot-args", .str a)])])])]

theorem errBind {α β : Type} (e : String) (f : α → Except String β) :
    (Except.error e : Except String α) >>= f = .error e := rfl

theorem pyTruthy_str {s : String} (h : s ≠ "") :
    Value.pyTruthy (.str s) = true := by
  simp [Value.pyTruthy, h]

theorem bothFormsError {template : Value} {data : List (String × Value)}
    {amdLoaded : Option (List Value)} {amdCores : Option Int} {now : String}
    (hTop : ((dictFind data "boot_args").isSome ||
      (dictFind data "BootArgs").isSome) = true)
    (hNv : nvramHasBootArgs data = .ok true) :
    mainPipeline template data amdLoaded amdCores now
      = .error "exit 1: duplicate boot-args definitions" := by
  unfold mainPipeline pipelineCore validateStructureApply
  simp only [bindOk hNv, hTop, Bool.true_and, Bool.and_true, Bool.and_self,
    reduceIte, errBind, okBind, pureOk]

theorem c10_boot_1 {a : String} (ha : a ≠ "") :
    bootArgsOps (topBootChangeset a)
      = .ok [Op.set ["NVRAM", "Add", bootGuid, "boot-args"] (.str a)] := by
  unfold bootArgsOps
  simp only [
    bindOk (show nvramBootArgsValue (topBootChangeset a) = .ok none from rfl),
    show get2 (topBootChangeset a) "BootArgs" "boot_args" = .str a from rfl,
    Option.getD_none, pyTruthy_null, pyTruthy_str ha, Bool.true_and,
    Bool.and_false, Bool.false_eq_true, reduceIte, pureOk, okBind]

theorem c10_boot_2 {a : String} (ha : a ≠ "") :
    bootArgsOps (nvramBootChangeset a)
      = .ok [Op.set ["NVRAM", "Add", bootGuid, "boot-args"] (.str a)] := by
  unfold bootArgsOps
  simp only [
    bindOk (show nvramBootArgsValue (nvramBootChangeset a)
      = .ok (some (.str a)) from rfl),
    show get2 (nvramBootChangeset a) "BootArgs" "boot_args"
      = Value.null from rfl,
    Option.getD_some, pyTruthy_null, pyTruthy_str ha, Bool.false_and,
    Bool.false_eq_true, reduceIte, pureOk, okBind]

theorem c10_ops_1 {a : String} (ha : a ≠ "") :
    changesetToOperations (topBootChangeset a)
      = .ok [Op.set ["NVRAM", "Add", bootGuid, "boot-args"] (.str a)] := by
  unfold changesetToOperations
  simp only [
    bindOk (show kextsOps (topBootChangeset a) = .ok [] from rfl),
    bindOk (show kernelQuirksOps (topBootChangeset a) = .ok [] from rfl),
    bindOk (show csrOps (topBootChangeset a) = .ok [] from rfl),
    bindOk (show platformInfoOps (topBootChangeset a) = .ok [] from rfl),
    bindOk (show acpiAddOps (topBootChangeset a) = .ok [] from rfl),
    bindOk (show uefiDriversOps (topBootChangeset a) = .ok [] from rfl),
    bindOk (show toolsOps (topBootChangeset a) = .ok [] from rfl),
    bindOk (show settingsOps (topBootChangeset a) "MiscDebug" "misc_debug" ["Misc", "Debug"] = .ok [] from rfl),
    bindOk (show settingsOps (topBootChangeset a) "MiscSerial" "misc_serial" ["Misc", "Serial"] = .ok [] from rfl),
    bindOk (show mappedSettingsOps (topBootChangeset a) "MiscBoot" "misc_boot" bootKeyMapping ["Misc", "Boot"] = .ok [] from rfl),
    bindOk (show mappedSettingsOps (topBootChangeset a) "MiscSecurity" "misc_security" securityKeyMapping ["Misc", "Security"] = .ok [] from rfl),
    bindOk (show settingsOps (topBootChangeset a) "UefiOutput" "uefi_output" ["UEFI", "Output"] = .ok [] from rfl),
    bindOk (show settingsOps (topBootChangeset a) "UefiApfs" "uefi_apfs" ["UEFI", "APFS"] = .ok [] from rfl),
    bindOk (show settingsOps (topBootChangeset a) "UefiQuirks" "uefi_quirks" ["UEFI", "Quirks"] = .ok [] from rfl),
    bindOk (show settingsOps (topBootChangeset a) "ProtocolOverrides" "protocol_overrides" ["UEFI", "ProtocolOverrides"] = .ok [] from rfl),
    bindOk (show nvramOps (topBootChangeset a) = .ok [] from rfl),
    bindOk (c10_boot_1 ha),
    show dictFind (topBootChangeset a) "BooterQuirks" = none from rfl,
    show get2 (topBootChangeset a) "KernelEmulate" "kernel_emulate" = Value.null from rfl,
    show get2 (topBootChangeset a) "KernelPatches" "kernel_patches" = Value.null from rfl,
    show get2 (topBootChangeset a) "AcpiQuirks" "acpi_quirks" = Value.null from rfl,
    show setIfTruthy (topBootChangeset a) "DeviceProperties" "device_properties" ["DeviceProperties", "Add"] = [] from rfl,
    show setIfTruthy (topBootChangeset a) "SecureBootModel" "secureboot_model" ["Misc", "Security", "SecureBootModel"] = [] from rfl,
    show setIfTruthy (topBootChangeset a) "Vault" "vault" ["Misc", "Security", "Vault"] = [] from rfl,
    show setIfTruthy (topBootChangeset a) "ScanPolicy" "scan_policy" ["Misc", "Security", "ScanPolicy"] = [] from rfl,
    show setIfTruthy (topBootChangeset a) "MiscBlessOverride" "misc_bless_override" ["Misc", "BlessOverride"] = [] from rfl,
    show setIfNotNone (topBootChangeset a) "AllowSetDefault" "allow_set_default" ["Misc", "Security", "AllowSetDefault"] = [] from rfl,
    show setIfNotNone (topBootChangeset a) "ExposeSensitiveData" "expose_sensitive_data" ["Misc", "Security", "ExposeSensitiveData"] = [] from rfl,
    show setIfNotNone (topBootChangeset a) "AuthRestart" "auth_restart" ["Misc", "Security", "AuthRestart"] = [] from rfl,
    show setIfNotNone (topBootChangeset a) "BlacklistAppleUpdate" "blacklist_apple_update" ["Misc", "Security", "BlacklistAppleUpdate"] = [] from rfl,
    show setIfNotNone (topBootChangeset a) "DmgLoading" "dmg_loading" ["Misc", "Security", "DmgLoading"] = [] from rfl,
    show setIfNotNone (topBootChangeset a) "EnablePassword" "enable_password" ["Misc", "Security", "EnablePassword"] = [] from rfl,
    show setIfNotNone (topBootChangeset a) "HaltLevel" "halt_level" ["Misc", "Security", "HaltLevel"] = [] from rfl,
    show dictFind (topBootChangeset a) "MiscTools" = none from rfl,
    show dictFind (topBootChangeset a) "MiscEntries" = none from rfl,
    show setIfNotNone (topBootChangeset a) "ConnectDrivers" "connect_drivers" ["UEFI", "ConnectDrivers"] = [] from rfl,
    show setIfTruthy (topBootChangeset a) "ReservedMemory" "reserved_memory" ["UEFI", "ReservedMemory"] = [] from rfl,
    pyTruthy_null, Bool.false_eq_true, reduceIte, pureOk, okBind,
    List.nil_append, List.cons_append, List.append_nil]


theorem c10_ops_2 {a : String} (ha : a ≠ "") :
    changesetToOperations (nvramBootChangeset a)
      = .ok [Op.set ["NVRAM", "Add", bootGuid, "boot-args"] (.str a)] := by
  unfold changesetToOperations
  simp only [
    bindOk (show kextsOps (nvramBootChangeset a) = .ok [] from rfl),
    bindOk (show kernelQuirksOps (nvramBootChangeset a) = .ok [] from rfl),
    bindOk (show csrOps (nvramBootChangeset a) = .ok [] from rfl),
    bindOk (show platformInfoOps (nvramBootChangeset a) = .ok [] from rfl),
    bindOk (show acpiAddOps (nvramBootChangeset a) = .ok [] from rfl),
    bindOk (show uefiDriversOps (nvramBootChangeset a) = .ok [] from rfl),
    bindOk (show toolsOps (nvramBootChangeset a) = .ok [] from rfl),
    bindOk (show settingsOps (nvramBootChangeset a) "MiscDebug" "misc_debug" ["Misc", "Debug"] = .ok [] from rfl),
    bindOk (show settingsOps (nvramBootChangeset a) "MiscSerial" "misc_serial" ["Misc", "Serial"] = .ok [] from rfl),
    bindOk (show mappedSettingsOps (nvramBootChangeset a) "MiscBoot" "misc_boot" bootKeyMapping ["Misc", "Boot"] = .ok [] from rfl),
    bindOk (show mappedSettingsOps (nvramBootChangeset a) "MiscSecurity" "misc_security" securityKeyMapping ["Misc", "Security"] = .ok [] from rfl),
    bindOk (show settingsOps (nvramBootChangeset a) "UefiOutput" "uefi_output" ["UEFI", "Output"] = .ok [] from rfl),
    bindOk (show settingsOps (nvramBootChangeset a) "UefiApfs" "uefi_apfs" ["UEFI", "APFS"] = .ok [] from rfl),
    bindOk (show settingsOps (nvramBootChangeset a) "UefiQuirks" "uefi_quirks" ["UEFI", "Quirks"] = .ok [] from rfl),
    bindOk (show settingsOps (nvramBootChangeset a) "ProtocolOverrides" "protocol_overrides" ["UEFI", "ProtocolOverrides"] = .ok [] from rfl),
    bindOk (show nvramOps (nvramBootChangeset a) = .ok [] from rfl),
    bindOk (c10_boot_2 ha),
    show dictFind (nvramBootChangeset a) "BooterQuirks" = none from rfl,
    show get2 (nvramBootChangeset a) "KernelEmulate" "kernel_emulate" = Value.null from rfl,
    show get2 (nvramBootChangeset a) "KernelPatches" "kernel_patches" = Value.null from rfl,
    show get2 (nvramBootChangeset a) "AcpiQuirks" "acpi_quirks" = Value.null from rfl,
    show setIfTruthy (nvramBootChangeset a) "DeviceProperties" "device_properties" ["DeviceProperties", "Add"] = [] from rfl,
    show setIfTruthy (nvramBootChangeset a) "SecureBootModel" "secureboot_model" ["Misc", "Security", "SecureBootModel"] = [] from rfl,
    show setIfTruthy (nvramBootChangeset a) "Vault" "vault" ["Misc", "Security", "Vault"] = [] from rfl,
    show setIfTruthy (nvramBootChangeset a) "ScanPolicy" "scan_policy" ["Misc", "Security", "ScanPolicy"] = [] from rfl,
    show setIfTruthy (nvramBootChangeset a) "MiscBlessOverride" "misc_bless_override" ["Misc", "BlessOverride"] = [] from rfl,
    show setIfNotNone (nvramBootChangeset a) "AllowSetDefault" "allow_set_default" ["Misc", "Security", "AllowSetDefault"] = [] from rfl,
    show setIfNotNone (nvramBootChangeset a) "ExposeSensitiveData" "expose_sensitive_data" ["Misc", "Security", "ExposeSensitiveData"] = [] from rfl,
    show setIfNotNone (nvramBootChangeset a) "AuthRestart" "auth_restart" ["Misc", "Security", "AuthRestart"] = [] from rfl,
    show setIfNotNone (nvramBootChangeset a) "BlacklistAppleUpdate" "blacklist_apple_update" ["Misc", "Security", "BlacklistAppleUpdate"] = [] from rfl,
    show setIfNotNone (nvramBootChangeset a) "DmgLoading" "dmg_loading" ["Misc", "Security", "DmgLoading"] = [] from rfl,
    show setIfNotNone (nvramBootChangeset a) "EnablePassword" "enable_password" ["Misc", "Security", "EnablePassword"] = [] from rfl,
    show setIfNotNone (nvramBootChangeset a) "HaltLevel" "halt_level" ["Misc", "Security", "HaltLevel"] = [] from rfl,
    show dictFind (nvramBootChangeset a) "MiscTools" = none from rfl,
    show dictFind (nvramBootChangeset a) "MiscEntries" = none from rfl,
    show setIfNotNone (nvramBootChangeset a) "ConnectDrivers" "connect_drivers" ["UEFI", "ConnectDrivers"] = [] from rfl,
    show setIfTruthy (nvramBootChangeset a) "ReservedMemory" "reserved_memory" ["UEFI", "ReservedMemory"] = [] from rfl,
    pyTruthy_null, Bool.false_eq_true, reduceIte, pureOk, okBind,
    List.nil_append, List.cons_append, List.append_nil]

/-- C10: when a changeset defines boot arguments both as a top-level
`BootArgs`/`boot_args` key and as a `boot-args` variable inside an NVRAM
`Add` GUID section, the apply run exits with code 1 at structure
validation, before any operation is emitted or the target plist touched;
when only one of the two forms is present (top-level, or NVRAM-only), the
translation emits exactly one operation: a `set` of
`NVRAM.Add.7C436110-AB2A-4BBB-A880-FE41995C9F82.boot-args`. -/
theorem boot_args_exclusive_single_op :
    (∀ (template : Value) (data : List (String × Value))
       (amdLoaded : Option (List Value)) (amdCores : Option Int)
       (now : String),
       ((dictFind data "boot_args").isSome ||
         (dictFind data "BootArgs").isSome) = true →
       nvramHasBootArgs data = .ok true →
       mainPipeline template data amdLoaded amdCores now
         = .error "exit 1: duplicate boot-args definitions") ∧
    (∀ a : String, a ≠ "" →
       changesetToOperations (topBootChangeset a)
         = .ok [Op.set ["NVRAM", "Add", bootGuid, "boot-args"] (.str a)]) ∧
    (∀ a : String, a ≠ "" →
       changesetToOperations (nvramBootChangeset a)
         = .ok [Op.set ["NVRAM", "Add", bootGuid, "boot-args"] (.str a)]) :=
  ⟨fun _ _ _ _ _ hTop hNv => bothFormsError hTop hNv,
   fun _ ha => c10_ops_1 ha, fun _ ha => c10_ops_2 ha⟩

/-- Witness for C10: the duplicate definition aborts the concrete run, and
a lone top-level `BootArgs` yields the single NVRAM `set` operation. -/
theorem boot_args_exclusive_single_op_witness :
    mainPipeline (.dict []) [("BootArgs", .str "x"), ("NVRAM",
        .dict [("Add", .dict [(bootGuid,
          .dict [("boot-args", .str "v")])])])] none none "T"
      = .error "exit 1: duplicate boot-args definitions" ∧
    changesetToOperations (topBootChangeset "debug=0x100")
      = .ok [Op.set ["NVRAM", "Add", bootGuid, "boot-args"]
          (.str "debug=0x100")] :=
  ⟨boot_args_exclusive_single_op.1 (.dict []) _ none none "T"
      (by rfl) (by rfl),
   boot_args_exclusive_single_op.2.1 "debug=0x100" (by decide)⟩


/-! ## Claim C5 — the plist → changeset → plist round trip -/

end Ozzy
